import Mathlib

/-!
Verification of the Telco churn ELT transformation engine
(`src/transform/transform_data.py` and `src/transform/create_insights.py`).

The embedding models a pandas record set as a `List Row` of cells.  A cell
is a string, an integer, a rational (Python floats are modelled as exact
rationals; `str`/`float` round-trips are modelled as the identity), or the
null/NaN sentinel.  Python string operations (`strip`, `lower`,
`capitalize`) are modelled on `List Char` for the ASCII range, which is the
range they act on for this data.  Fallible pandas operations (`astype(int)`
on a column containing NaN, the `.str` accessor on a non-object column,
`pd.cut` / `.mean()` on an object column of strings) make the corresponding
modelled function return `Option`, with `none` standing for the raised
exception.
-/

attribute [local semireducible] Rat.add Rat.mul Rat.sub Rat.inv

/-! ## Python character and string primitives (ASCII range) -/

/-- ASCII lower-casing, as performed by Python `str.lower` on this data. -/
def charLower (c : Char) : Char :=
  match c with
  | 'A' => 'a' | 'B' => 'b' | 'C' => 'c' | 'D' => 'd' | 'E' => 'e' | 'F' => 'f'
  | 'G' => 'g' | 'H' => 'h' | 'I' => 'i' | 'J' => 'j' | 'K' => 'k' | 'L' => 'l'
  | 'M' => 'm' | 'N' => 'n' | 'O' => 'o' | 'P' => 'p' | 'Q' => 'q' | 'R' => 'r'
  | 'S' => 's' | 'T' => 't' | 'U' => 'u' | 'V' => 'v' | 'W' => 'w' | 'X' => 'x'
  | 'Y' => 'y' | 'Z' => 'z'
  | other => other

/-- ASCII upper-casing, as performed by Python `str.upper`/`str.capitalize`
on the first character. -/
def charUpper (c : Char) : Char :=
  match c with
  | 'a' => 'A' | 'b' => 'B' | 'c' => 'C' | 'd' => 'D' | 'e' => 'E' | 'f' => 'F'
  | 'g' => 'G' | 'h' => 'H' | 'i' => 'I' | 'j' => 'J' | 'k' => 'K' | 'l' => 'L'
  | 'm' => 'M' | 'n' => 'N' | 'o' => 'O' | 'p' => 'P' | 'q' => 'Q' | 'r' => 'R'
  | 's' => 'S' | 't' => 'T' | 'u' => 'U' | 'v' => 'V' | 'w' => 'W' | 'x' => 'X'
  | 'y' => 'Y' | 'z' => 'Z'
  | other => other

/-- The whitespace characters removed by Python `str.strip()`. -/
def isPySpace (c : Char) : Bool :=
  c = ' ' || c = '\t' || c = '\n' || c = '\r' || c = '\x0b' || c = '\x0c'

/-- `str.strip()` on a character list: drop whitespace from both ends. -/
def pyStripChars (l : List Char) : List Char :=
  ((((l.dropWhile isPySpace).reverse).dropWhile isPySpace)).reverse

/-- `str.lower()` on a character list. -/
def pyLowerChars (l : List Char) : List Char := l.map charLower

/-- `str.capitalize()` on a character list: first character upper-cased,
the rest lower-cased. -/
def pyCapitalizeChars (l : List Char) : List Char :=
  match l with
  | [] => []
  | c :: cs => charUpper c :: cs.map charLower

/-- `str.strip()` on a `String`. -/
def pyStrip (s : String) : String := ⟨pyStripChars s.data⟩

/-- `str.lower()` on a `String`. -/
def pyLower (s : String) : String := ⟨pyLowerChars s.data⟩

/-- `str.capitalize()` on a `String`. -/
def pyCapitalize (s : String) : String := ⟨pyCapitalizeChars s.data⟩

/-! ### Character-level lemmas -/

theorem charLower_charUpper (c : Char) : charLower (charUpper c) = charLower c := by
  unfold charUpper
  split <;> rfl

theorem charLower_cases (c : Char) :
    charLower c = c ∨ charLower c ∈
      ['a','b','c','d','e','f','g','h','i','j','k','l','m',
       'n','o','p','q','r','s','t','u','v','w','x','y','z'] := by
  unfold charLower
  split <;> simp

theorem charUpper_cases (c : Char) :
    charUpper c = c ∨ charUpper c ∈
      ['A','B','C','D','E','F','G','H','I','J','K','L','M',
       'N','O','P','Q','R','S','T','U','V','W','X','Y','Z'] := by
  unfold charUpper
  split <;> simp

theorem charLower_of_mem_lower (d : Char)
    (h : d ∈ ['a','b','c','d','e','f','g','h','i','j','k','l','m',
              'n','o','p','q','r','s','t','u','v','w','x','y','z']) :
    charLower d = d := by
  fin_cases h <;> rfl

theorem charUpper_of_mem_upper (d : Char)
    (h : d ∈ ['A','B','C','D','E','F','G','H','I','J','K','L','M',
              'N','O','P','Q','R','S','T','U','V','W','X','Y','Z']) :
    charUpper d = d := by
  fin_cases h <;> rfl

theorem charLower_charLower (c : Char) : charLower (charLower c) = charLower c := by
  rcases charLower_cases c with h | h
  · rw [h, h]
  · rw [charLower_of_mem_lower _ h]

theorem charUpper_charUpper (c : Char) : charUpper (charUpper c) = charUpper c := by
  rcases charUpper_cases c with h | h
  · rw [h, h]
  · rw [charUpper_of_mem_upper _ h]

theorem isPySpace_charUpper (c : Char) : isPySpace (charUpper c) = isPySpace c := by
  unfold charUpper
  split <;> rfl

theorem isPySpace_charLower (c : Char) : isPySpace (charLower c) = isPySpace c := by
  unfold charLower
  split <;> rfl

/-! ### String-level lemmas -/

theorem dropWhile_dropWhile (p : α → Bool) (l : List α) :
    (l.dropWhile p).dropWhile p = l.dropWhile p := by
  induction l with
  | nil => rfl
  | cons x xs ih =>
    by_cases h : p x
    · simp [List.dropWhile_cons, h, ih]
    · simp [List.dropWhile_cons, h]

theorem dropWhile_eq_self_of_head (p : α → Bool) (l : List α)
    (h : ∀ c ∈ l.head?, ¬ p c) : l.dropWhile p = l := by
  cases l with
  | nil => rfl
  | cons x xs =>
    have : ¬ p x = true := h x rfl
    simp [List.dropWhile_cons, this]

theorem head_dropWhile_not (p : α → Bool) (l : List α) :
    ∀ c ∈ (l.dropWhile p).head?, ¬ p c := by
  induction l with
  | nil => intro c hc; simp at hc
  | cons x xs ih =>
    intro c hc
    by_cases h : p x
    · exact ih c (by simpa [List.dropWhile_cons, h] using hc)
    · simp [List.dropWhile_cons, h] at hc
      subst hc
      exact fun hpc => h hpc

theorem getLast?_dropWhile_ne_nil (p : α → Bool) (l : List α)
    (h : l.dropWhile p ≠ []) : (l.dropWhile p).getLast? = l.getLast? := by
  obtain ⟨t, ht⟩ := @List.dropWhile_suffix _ l p
  have h2 := @List.getLast?_append_of_ne_nil _ t (l.dropWhile p) h
  rw [ht] at h2
  exact h2.symm

theorem pyStripChars_no_lead (l : List Char) :
    ∀ c ∈ (pyStripChars l).head?, ¬ isPySpace c := by
  intro c hc
  unfold pyStripChars at hc
  rw [List.head?_reverse] at hc
  have hne : (l.dropWhile isPySpace).reverse.dropWhile isPySpace ≠ [] := by
    intro h; rw [h] at hc; simp at hc
  rw [getLast?_dropWhile_ne_nil _ _ hne, List.getLast?_reverse] at hc
  exact head_dropWhile_not _ _ c hc

theorem pyStripChars_no_trail (l : List Char) :
    ∀ c ∈ (pyStripChars l).getLast?, ¬ isPySpace c := by
  intro c hc
  unfold pyStripChars at hc
  rw [List.getLast?_reverse] at hc
  exact head_dropWhile_not _ _ c hc

theorem pyStripChars_eq_self (l : List Char)
    (h1 : ∀ c ∈ l.head?, ¬ isPySpace c) (h2 : ∀ c ∈ l.getLast?, ¬ isPySpace c) :
    pyStripChars l = l := by
  unfold pyStripChars
  rw [dropWhile_eq_self_of_head _ _ h1]
  rw [dropWhile_eq_self_of_head _ _ (by simpa [List.head?_reverse] using h2)]
  exact List.reverse_reverse l

theorem pyStripChars_idem (l : List Char) :
    pyStripChars (pyStripChars l) = pyStripChars l :=
  pyStripChars_eq_self _ (pyStripChars_no_lead l) (pyStripChars_no_trail l)

theorem pyLowerChars_pyCapitalizeChars (l : List Char) :
    pyLowerChars (pyCapitalizeChars l) = pyLowerChars l := by
  cases l with
  | nil => rfl
  | cons c cs =>
    simp only [pyCapitalizeChars, pyLowerChars, List.map_cons, List.map_map]
    rw [charLower_charUpper]
    congr 1
    exact List.map_congr_left fun x _ => charLower_charLower x

theorem pyCapitalizeChars_idem (l : List Char) :
    pyCapitalizeChars (pyCapitalizeChars l) = pyCapitalizeChars l := by
  cases l with
  | nil => rfl
  | cons c cs =>
    simp only [pyCapitalizeChars, List.map_map]
    rw [charUpper_charUpper]
    congr 1
    exact List.map_congr_left fun x _ => charLower_charLower x

theorem head?_pyCapitalizeChars (l : List Char) :
    (pyCapitalizeChars l).head? = l.head?.map charUpper := by
  cases l <;> rfl

theorem getLast?_pyCapitalizeChars (l : List Char) :
    ∀ c ∈ (pyCapitalizeChars l).getLast?, ∃ d ∈ l.getLast?, c = charUpper d ∨ c = charLower d := by
  intro c hc
  cases l with
  | nil => simp [pyCapitalizeChars] at hc
  | cons x xs =>
    cases xs with
    | nil =>
      simp only [pyCapitalizeChars, List.map_nil, List.getLast?_singleton,
        Option.mem_def, Option.some.injEq] at hc
      exact ⟨x, by simp, Or.inl hc.symm⟩
    | cons y ys =>
      have h2 : (pyCapitalizeChars (x :: y :: ys)).getLast? = ((y :: ys).getLast?).map charLower := by
        show (charUpper x :: (y :: ys).map charLower).getLast? = _
        rw [List.map_cons, List.getLast?_cons_cons, ← List.map_cons, List.getLast?_map]
      rw [Option.mem_def, h2] at hc
      rcases ho : (y :: ys).getLast? with _ | d
      · rw [ho] at hc; simp at hc
      · rw [ho] at hc
        simp only [Option.map_some', Option.some.injEq] at hc
        exact ⟨d, by rw [Option.mem_def, List.getLast?_cons_cons, ho], Or.inr hc.symm⟩

/-- Capitalizing a stripped string leaves it stripped, so
`strip (capitalize (strip s)) = capitalize (strip s)`. -/
theorem pyStripChars_pyCapitalizeChars_pyStripChars (l : List Char) :
    pyStripChars (pyCapitalizeChars (pyStripChars l)) = pyCapitalizeChars (pyStripChars l) := by
  apply pyStripChars_eq_self
  · intro c hc
    rw [Option.mem_def, head?_pyCapitalizeChars] at hc
    obtain ⟨d, hd, rfl⟩ := Option.map_eq_some'.mp hc
    rw [isPySpace_charUpper]
    exact pyStripChars_no_lead l d (by rw [Option.mem_def, hd])
  · intro c hc
    obtain ⟨d, hd, hcd⟩ := getLast?_pyCapitalizeChars _ c hc
    rcases hcd with rfl | rfl
    · rw [isPySpace_charUpper]; exact pyStripChars_no_trail l d hd
    · rw [isPySpace_charLower]; exact pyStripChars_no_trail l d hd

/-! ## Cells and record sets -/

/-- A pandas cell: a string, an integer, a float (modelled as an exact
rational), or the null/NaN sentinel. -/
inductive Cell where
  | str (s : String)
  | int (n : Int)
  | float (q : ℚ)
  | none
  deriving DecidableEq

/-- Whether a cell holds a string.  A pandas column of this model has
`object` dtype exactly when some cell is a string; otherwise it is numeric
(NaN alone makes a float column). -/
def Cell.isStr : Cell → Bool
  | .str _ => true
  | _ => false

/-- Python `str()` of an integer, written out digit by digit so the kernel
can evaluate it. -/
def intPyRepr (n : Int) : String :=
  if n < 0 then "-" ++ ⟨Nat.toDigits 10 n.natAbs⟩ else ⟨Nat.toDigits 10 n.natAbs⟩

/-- Python `str()` of a float value.  Integral floats print as `"n.0"`
exactly as Python does; non-integral ones are abstracted as `"num/den"`
(Python would print a decimal expansion, but the only property the cleaning
code observes is whether the lower-cased text is one of the Yes/No tokens,
which it never is in either rendering). -/
def ratPyRepr (q : ℚ) : String :=
  if q.den = 1 then intPyRepr q.num ++ ".0"
  else intPyRepr q.num ++ "/" ++ intPyRepr (q.den : Int)

/-- Python `str()` of a cell (`str(np.nan)` is `"nan"`). -/
def Cell.pyStr : Cell → String
  | .str s => s
  | .int n => intPyRepr n
  | .float q => ratPyRepr q
  | .none => "nan"

/-- Repack an optional numeric result as a float column cell (`none` is the
NaN sentinel). -/
def Cell.ofOpt : Option ℚ → Cell
  | some q => .float q
  | Option.none => .none

/-- Numeric value carried by a cell of a numeric (non-object) column. -/
def Cell.toQ? : Cell → Option ℚ
  | .int n => some (n : ℚ)
  | .float q => some q
  | _ => Option.none

/-- One row of the Telco record set: the fixed source schema both cleaning
and feature engineering assume (spec section 3, "a fixed known set of
source columns"). -/
structure Row where
  customerID : Cell
  gender : Cell
  seniorCitizen : Cell
  partner : Cell
  dependents : Cell
  tenure : Cell
  phoneService : Cell
  multipleLines : Cell
  internetService : Cell
  onlineSecurity : Cell
  onlineBackup : Cell
  deviceProtection : Cell
  techSupport : Cell
  streamingTV : Cell
  streamingMovies : Cell
  contract : Cell
  paperlessBilling : Cell
  paymentMethod : Cell
  monthlyCharges : Cell
  totalCharges : Cell
  churn : Cell
  deriving DecidableEq

/-! ## Python float parsing -/

def isAsciiDigit (c : Char) : Bool := '0' ≤ c && c ≤ '9'

def digitVal (c : Char) : Nat := c.toNat - 48

def natOfDigits (l : List Char) : Nat := l.foldl (fun a c => 10 * a + digitVal c) 0

def qPow10 (e : Int) : ℚ :=
  if 0 ≤ e then ((10 : ℚ) ^ e.toNat) else ((10 : ℚ) ^ (-e).toNat)⁻¹

/-- Strip an optional leading sign, returning whether it was `'-'`. -/
def splitSign : List Char → Bool × List Char
  | '+' :: t => (false, t)
  | '-' :: t => (true, t)
  | t => (false, t)

/-- Python `float(s)` on a character list: optional surrounding whitespace,
optional sign, a decimal mantissa with at least one digit, and an optional
exponent.  Unparseable text (including Python's `"inf"`/`"nan"` spellings,
which the cleaning code treats the same as a failed parse or a NaN cell)
yields `none`. -/
def pyFloatChars (l0 : List Char) : Option ℚ :=
  let l := pyStripChars l0
  let (neg, l1) := splitSign l
  let ip := l1.takeWhile isAsciiDigit
  let r1 := l1.dropWhile isAsciiDigit
  let (fp, r2) :=
    match r1 with
    | '.' :: t => (t.takeWhile isAsciiDigit, t.dropWhile isAsciiDigit)
    | t => (([] : List Char), t)
  if ip = [] ∧ fp = [] then Option.none
  else
    let mant : ℚ := (natOfDigits ip : ℚ) + (natOfDigits fp : ℚ) / (10 : ℚ) ^ fp.length
    let signed : ℚ := if neg then -mant else mant
    match r2 with
    | [] => some signed
    | 'e' :: t =>
        let (eneg, t1) := splitSign t
        let ed := t1.takeWhile isAsciiDigit
        let r3 := t1.dropWhile isAsciiDigit
        if ed = [] ∨ r3 ≠ [] then Option.none
        else some (signed * qPow10 (if eneg then -(natOfDigits ed : Int) else (natOfDigits ed : Int)))
    | 'E' :: t =>
        let (eneg, t1) := splitSign t
        let ed := t1.takeWhile isAsciiDigit
        let r3 := t1.dropWhile isAsciiDigit
        if ed = [] ∨ r3 ≠ [] then Option.none
        else some (signed * qPow10 (if eneg then -(natOfDigits ed : Int) else (natOfDigits ed : Int)))
    | _ => Option.none

/-! ## transform_data.clean_data -/

/-- String branch of `_parse_total_charges`: try `float(s)` on the stripped
text; on failure strip leading `"$"`, cut at the next `"$"`
(`s.split("$")[0]`), and try again. -/
def parseMoneyChars (l0 : List Char) : Option ℚ :=
  let l := pyStripChars l0
  match pyFloatChars l with
  | some q => some q
  | Option.none =>
      let l2 := l.dropWhile (fun c => c = '$')
      let l3 := if l2.contains '$' then l2.takeWhile (fun c => ¬ c = '$') else l2
      pyFloatChars l3

/-- `_parse_total_charges` from `transform_data.py`: NaN, `""` and `" "`
map to NaN; otherwise parse `str(val).strip()`.  Numeric cells round-trip
through `str` unchanged. -/
def parse_total_charges (v : Cell) : Option ℚ :=
  match v with
  | .none => Option.none
  | .str s => if s = "" ∨ s = " " then Option.none else parseMoneyChars s.data
  | .int n => some (n : ℚ)
  | .float q => some q

/-- `pd.to_numeric(-, errors="coerce")` on one cell. -/
def toNumericCell (v : Cell) : Option ℚ :=
  match v with
  | .none => Option.none
  | .int n => some (n : ℚ)
  | .float q => some q
  | .str s => pyFloatChars s.data

/-- `int(q)` / `astype(int)` on a float: truncation toward zero. -/
def ratTruncInt (q : ℚ) : Int := q.num.tdiv (q.den : Int)

/-- The tenure pipeline `pd.to_numeric(t, errors="coerce").fillna(0).astype(int)`. -/
def cleanTenure (v : Cell) : Int := ratTruncInt ((toNumericCell v).getD 0)

/-- `SeniorCitizen` in an object-dtype column:
`.map({"Yes": 1, "No": 0, "1": 1, "0": 0}).fillna(0).astype(int)`.
The dictionary keys are strings, so any non-string cell (including a native
numeric 1 sitting in a mixed column) is unmapped and filled with 0. -/
def seniorMapObj (v : Cell) : Int :=
  match v with
  | .str "Yes" => 1
  | .str "No" => 0
  | .str "1" => 1
  | .str "0" => 0
  | _ => 0

/-- `astype(int)` on a cell of a numeric column; `none` models the raise on
a NaN (and the unreachable string case). -/
def cellAsInt : Cell → Option Int
  | .int n => some n
  | .float q => some (ratTruncInt q)
  | _ => Option.none

/-- The `SeniorCitizen` standardisation, branching on the column dtype as
`clean_data` does. -/
def seniorClean (sObj : Bool) (v : Cell) : Option Int :=
  if sObj then some (seniorMapObj v) else cellAsInt v

/-- The `TotalCharges` column after parsing and the mask-driven imputation
`df.loc[mask, "TotalCharges"] = MonthlyCharges * tenure` on one row. -/
def imputeTotalCharges (r : Row) : Option ℚ :=
  match parse_total_charges r.totalCharges with
  | some q => some q
  | Option.none =>
      (parse_total_charges r.monthlyCharges).map (fun m => m * (cleanTenure r.tenure : ℚ))

/-- The numeric stages of `clean_data` on one row: parse `TotalCharges` and
`MonthlyCharges`, coerce `tenure`, impute missing `TotalCharges` as
`MonthlyCharges * tenure`, and standardise `SeniorCitizen` (whose
`astype(int)` can raise, hence `Option`). -/
def cleanRowNum (sObj : Bool) (r : Row) : Option Row :=
  match seniorClean sObj r.seniorCitizen with
  | Option.none => Option.none
  | some sc =>
      some { r with totalCharges := Cell.ofOpt (imputeTotalCharges r),
                    monthlyCharges := Cell.ofOpt (parse_total_charges r.monthlyCharges),
                    tenure := Cell.int (cleanTenure r.tenure),
                    seniorCitizen := Cell.int sc }

/-- `drop_duplicates(subset=[key], keep="first")`: keep the first row for
each key value, preserving order.  (Stated with the filter after the
recursive call so the recursion is structural; this is the same
keep-first-occurrence function.) -/
def dedupByKey (key : α → Cell) : List α → List α
  | [] => []
  | x :: xs => x :: (dedupByKey key xs).filter (fun y => ¬ key y = key x)

/-- Elementwise application of a fallible per-row operation to a column:
any raising cell makes the whole pandas operation raise. -/
def mapOption (f : α → Option β) : List α → Option (List β)
  | [] => some []
  | x :: xs =>
      match f x, mapOption f xs with
      | some y, some ys => some (y :: ys)
      | _, _ => Option.none

/-- The dtype test `df_clean["SeniorCitizen"].dtype == object`: an
object-typed column in this model is one containing a string cell. -/
def seniorObj (rows : List Row) : Bool := rows.any (fun r => r.seniorCitizen.isStr)

/-- The deduplication key of `clean_data`. -/
def rowKey (r : Row) : Cell := r.customerID

/-- The Yes/No standardisation lambda applied to `Partner`, `Dependents`,
`PhoneService`, `PaperlessBilling` and `Churn`. -/
def ynNormalize (x : Cell) : Cell :=
  match x with
  | .none => .str "No"
  | v =>
      let s := pyStrip (Cell.pyStr v)
      let ls := pyLower s
      if ls = "yes" ∨ ls = "true" ∨ ls = "1" then .str "Yes"
      else if ls = "no" ∨ ls = "false" ∨ ls = "0" then .str "No"
      else .str (pyCapitalize s)

/-- `df["gender"].str.strip().str.capitalize()` on one cell: the `.str`
accessor yields NaN on non-string cells. -/
def genderClean : Cell → Cell
  | .str s => .str (pyCapitalize (pyStrip s))
  | _ => .none

/-- The string stages of `clean_data` on one row (Yes/No columns and
gender). -/
def cleanRowStr (r : Row) : Row :=
  { r with partner := ynNormalize r.partner,
           dependents := ynNormalize r.dependents,
           phoneService := ynNormalize r.phoneService,
           paperlessBilling := ynNormalize r.paperlessBilling,
           churn := ynNormalize r.churn,
           gender := genderClean r.gender }

/-- `clean_data` from `transform_data.py`.  `none` models an exception:
`astype(int)` on a `SeniorCitizen` column holding NaN without strings, or
the `.str` accessor on a non-object `gender` column (nonempty with no
string cell). -/
def clean_data (rows : List Row) : Option (List Row) :=
  match mapOption (cleanRowNum (seniorObj rows)) rows with
  | Option.none => Option.none
  | some r1 =>
      if dedupByKey rowKey r1 ≠ [] ∧ ¬ (dedupByKey rowKey r1).any (fun r => r.gender.isStr)
      then Option.none
      else some ((dedupByKey rowKey r1).map cleanRowStr)

/-! ## create_insights.add_engineered_features -/

/-- `pd.cut(tenure, bins=[0,12,24,48,60,100], labels=[...], include_lowest=True)`
followed by `astype(str)`: out-of-range values become NaN and print as
`"nan"`. -/
def tenureGroupOf (q : ℚ) : String :=
  if 0 ≤ q ∧ q ≤ 12 then "0-12 mois"
  else if 12 < q ∧ q ≤ 24 then "13-24 mois"
  else if 24 < q ∧ q ≤ 48 then "25-48 mois"
  else if 48 < q ∧ q ≤ 60 then "49-60 mois"
  else if 60 < q ∧ q ≤ 100 then "61+ mois"
  else "nan"

/-- `pd.cut(MonthlyCharges, bins=[0,30,50,70,90,200], labels=[...],
include_lowest=True).astype(str)`. -/
def monthlyChargesGroupOf (q : ℚ) : String :=
  if 0 ≤ q ∧ q ≤ 30 then "0-30$"
  else if 30 < q ∧ q ≤ 50 then "31-50$"
  else if 50 < q ∧ q ≤ 70 then "51-70$"
  else if 70 < q ∧ q ≤ 90 then "71-90$"
  else if 90 < q ∧ q ≤ 200 then "91+$"
  else "nan"

/-- Apply a bucketing function to a numeric cell; a NaN cell buckets to NaN
and prints as `"nan"` (string cells make `pd.cut` raise and are excluded by
the caller's column check). -/
def cutCell (f : ℚ → String) (v : Cell) : String :=
  match v.toQ? with
  | some q => f q
  | Option.none => "nan"

/-- The per-column term of `total_services`:
`1 if str(x) in ["Yes", "DSL", "Fiber optic"] else 0`. -/
def serviceCount1 (v : Cell) : Nat :=
  if Cell.pyStr v = "Yes" ∨ Cell.pyStr v = "DSL" ∨ Cell.pyStr v = "Fiber optic" then 1 else 0

/-- Pandas `== "Yes"` on one cell (NaN and non-strings compare `False`). -/
def eqYes (v : Cell) : Bool := v = Cell.str "Yes"

/-- Insertion of a value into an ascending list (the sort underlying the
median). -/
def insertSorted (a : ℚ) : List ℚ → List ℚ
  | [] => [a]
  | b :: bs => if a ≤ b then a :: b :: bs else b :: insertSorted a bs

/-- Ascending insertion sort of the non-null values of a numeric column. -/
def sortQ : List ℚ → List ℚ
  | [] => []
  | a :: as => insertSorted a (sortQ as)

/-- `Series.median()` over the non-null values (pandas skips NaN; an empty
column yields NaN). -/
def medianQ (l : List ℚ) : Option ℚ :=
  let s := sortQ l
  if s.length = 0 then Option.none
  else if s.length % 2 = 1 then s[s.length / 2]?
  else some (((s[s.length / 2 - 1]?).getD 0 + (s[s.length / 2]?).getD 0) / 2)

/-- `np.where(tenure > 0, TotalCharges / tenure, MonthlyCharges)` on one
row (NaN comparisons are `False`; NaN propagates through division). -/
def avgMonthlySpend (r : Row) : Option ℚ :=
  match r.tenure.toQ? with
  | some t =>
      if 0 < t then (r.totalCharges.toQ?).map (fun tc => tc / t)
      else r.monthlyCharges.toQ?
  | Option.none => r.monthlyCharges.toQ?

/-- `Contract.map({"Month-to-month": 3, "One year": 2, "Two year": 1}).fillna(2)`. -/
def contractRiskScore (v : Cell) : Int :=
  match v with
  | .str "Month-to-month" => 3
  | .str "One year" => 2
  | .str "Two year" => 1
  | _ => 2

/-- A cleaned row extended with the engineered feature columns, in the
order `add_engineered_features` creates them. -/
structure EnrichedRow where
  base : Row
  tenure_group : String
  monthly_charges_group : String
  total_services : Nat
  has_streaming : Bool
  has_security : Bool
  is_high_value : Bool
  avg_monthly_spend : Option ℚ
  contract_risk_score : Int
  deriving DecidableEq

/-- The per-row feature derivations of `add_engineered_features`,
parameterised by the dataset-wide `MonthlyCharges` median. -/
def enrichRow (med : Option ℚ) (r : Row) : EnrichedRow :=
  { base := r,
    tenure_group := cutCell tenureGroupOf r.tenure,
    monthly_charges_group := cutCell monthlyChargesGroupOf r.monthlyCharges,
    total_services :=
      serviceCount1 r.phoneService + serviceCount1 r.multipleLines +
      serviceCount1 r.internetService + serviceCount1 r.onlineSecurity +
      serviceCount1 r.onlineBackup + serviceCount1 r.deviceProtection +
      serviceCount1 r.techSupport + serviceCount1 r.streamingTV +
      serviceCount1 r.streamingMovies,
    has_streaming := eqYes r.streamingTV || eqYes r.streamingMovies,
    has_security := eqYes r.onlineSecurity || eqYes r.onlineBackup || eqYes r.deviceProtection,
    is_high_value :=
      match r.monthlyCharges.toQ?, med with
      | some m, some d => decide (d < m)
      | _, _ => false,
    avg_monthly_spend := avgMonthlySpend r,
    contract_risk_score := contractRiskScore r.contract }

/-- `add_engineered_features` from `create_insights.py`.  `none` models the
exceptions `pd.cut`, `.median()` and the numeric comparisons raise when the
`tenure`, `MonthlyCharges` or `TotalCharges` column is object-typed with
string cells. -/
def add_engineered_features (rows : List Row) : Option (List EnrichedRow) :=
  if rows.any (fun r => r.tenure.isStr || r.monthlyCharges.isStr || r.totalCharges.isStr)
  then Option.none
  else some (rows.map (enrichRow (medianQ (rows.filterMap (fun r => r.monthlyCharges.toQ?)))))

/-! ## create_insights.create_churn_insights -/

/-- Python 3 `round(x, d)` scaled integer rounding: round half to even. -/
def roundHalfEven (x : ℚ) : Int :=
  let f := Int.floor x
  let frac := x - f
  if frac < 1/2 then f
  else if 1/2 < frac then f + 1
  else if f % 2 = 0 then f else f + 1

/-- `round(x, d)` for `d` decimal places. -/
def roundQ (d : Nat) (x : ℚ) : ℚ := (roundHalfEven (x * 10 ^ d) : ℚ) / 10 ^ d

/-- `Series.mean()` over optional numeric values: pandas skips NaN and
yields NaN on an empty or all-NaN column. -/
def meanQ (l : List (Option ℚ)) : Option ℚ :=
  if (l.filterMap id).length = 0 then Option.none
  else some ((l.filterMap id).sum / ((l.filterMap id).length : ℚ))

/-- `Series.mean()` of the boolean churn-flag column (NaN skipped). -/
def meanBool (l : List (Option Bool)) : Option ℚ :=
  if (l.filterMap id).length = 0 then Option.none
  else some (((l.filterMap id).countP (fun b => b) : ℚ) / ((l.filterMap id).length : ℚ))

/-- The `has_churned` column: `map({"Yes": True, "No": False})` when the
`Churn` column is object-typed (unmapped values become NaN), else
`astype(bool)` (where `bool(nan)` is `True`). -/
def churnFlag (chObj : Bool) (v : Cell) : Option Bool :=
  if chObj then
    match v with
    | .str "Yes" => some true
    | .str "No" => some false
    | _ => Option.none
  else
    match v with
    | .int n => some (decide (¬ n = 0))
    | .float q => some (decide (¬ q = 0))
    | .none => some true
    | .str _ => some true

/-- An aggregated insight row (one row of the table built by
`create_churn_insights`). -/
structure InsightRow where
  insight_name : String
  dimension : String
  category : String
  total_customers : Nat
  churned_customers : Nat
  churn_rate : Option ℚ
  avg_monthly_charges : Option ℚ
  avg_tenure : Option ℚ
  avg_total_charges : Option ℚ
  data_source : String
  deriving DecidableEq

/-- The insight record built for one group of rows. -/
def mkInsight (chObj : Bool) (nm dim cat : String) (grp : List EnrichedRow)
    (source : String) : InsightRow :=
  { insight_name := nm,
    dimension := dim,
    category := cat,
    total_customers := grp.length,
    churned_customers :=
      ((grp.map (fun r => churnFlag chObj r.base.churn)).filterMap id).countP (fun b => b),
    churn_rate :=
      (meanBool (grp.map (fun r => churnFlag chObj r.base.churn))).map
        (fun m => roundQ 2 (m * 100)),
    avg_monthly_charges := (meanQ (grp.map (fun r => r.base.monthlyCharges.toQ?))).map (roundQ 2),
    avg_tenure := (meanQ (grp.map (fun r => r.base.tenure.toQ?))).map (roundQ 1),
    avg_total_charges := (meanQ (grp.map (fun r => r.base.totalCharges.toQ?))).map (roundQ 2),
    data_source := source }

/-- The distinct non-null key values of a grouping column.  Pandas
`groupby` drops null keys and emits groups in sorted key order; the claims
proved below are insensitive to the order of the emitted rows, so the
first-appearance order used here produces the same multiset of insight
rows. -/
def groupbyKeys (key : EnrichedRow → Cell) (rows : List EnrichedRow) : List Cell :=
  dedupByKey (fun c => c) ((rows.map key).filter (fun c => ¬ c = Cell.none))

/-- One `for key, group in df.groupby(col)` block of `create_churn_insights`. -/
def dimInsights (chObj : Bool) (nm dim : String) (catOf : Cell → String)
    (key : EnrichedRow → Cell) (rows : List EnrichedRow) (source : String) : List InsightRow :=
  (groupbyKeys key rows).map (fun k =>
    mkInsight chObj nm dim (catOf k) (rows.filter (fun r => key r = k)) source)

/-- Pandas `== 1` on a group key (used for the `"Senior"` label). -/
def cellEqOne (v : Cell) : Bool :=
  match v.toQ? with
  | some q => decide (q = 1)
  | Option.none => false

/-- The dtype test `df_work["Churn"].dtype == object` for the enriched
frame. -/
def churnObj (rows : List EnrichedRow) : Bool := rows.any (fun r => r.base.churn.isStr)

/-- `create_churn_insights` from `create_insights.py`: seven per-dimension
blocks followed by exactly one overall-summary row.  `none` models the
exception `.mean()` raises on an object-typed numeric column.  The
`tenure_group` / `monthly_charges_group` blocks are always present since an
enriched record set always carries those columns. -/
def create_churn_insights (rows : List EnrichedRow) (source : String) : Option (List InsightRow) :=
  if rows.any (fun r =>
      r.base.tenure.isStr || r.base.monthlyCharges.isStr || r.base.totalCharges.isStr)
  then Option.none
  else
    some (
      dimInsights (churnObj rows) "churn_by_contract" "Contract" Cell.pyStr
        (fun r => r.base.contract) rows source ++
      dimInsights (churnObj rows) "churn_by_internet" "InternetService" Cell.pyStr
        (fun r => r.base.internetService) rows source ++
      dimInsights (churnObj rows) "churn_by_payment" "PaymentMethod" Cell.pyStr
        (fun r => r.base.paymentMethod) rows source ++
      dimInsights (churnObj rows) "churn_by_tenure_group" "tenure_group" Cell.pyStr
        (fun r => Cell.str r.tenure_group) rows source ++
      dimInsights (churnObj rows) "churn_by_gender" "gender" Cell.pyStr
        (fun r => r.base.gender) rows source ++
      dimInsights (churnObj rows) "churn_by_senior" "SeniorCitizen"
        (fun k => if cellEqOne k then "Senior" else "Non-Senior")
        (fun r => r.base.seniorCitizen) rows source ++
      dimInsights (churnObj rows) "churn_by_charges_group" "monthly_charges_group" Cell.pyStr
        (fun r => Cell.str r.monthly_charges_group) rows source ++
      [mkInsight (churnObj rows) "overall_summary" "ALL" "Total" rows source])

/-! ## Supporting list lemmas -/

theorem mapOption_forall2 (f : α → Option β) (l : List α) (l' : List β) :
    mapOption f l = some l' ↔ List.Forall₂ (fun a b => f a = some b) l l' := by
  induction l generalizing l' with
  | nil =>
    simp only [mapOption]
    constructor
    · intro h
      injection h with h
      subst h
      exact List.Forall₂.nil
    · intro h
      cases h
      rfl
  | cons x xs ih =>
    constructor
    · intro h
      rcases hfx : f x with _ | y <;> rw [mapOption, hfx] at h
      · exact absurd h (by simp)
      · rcases hm : mapOption f xs with _ | ys <;> rw [hm] at h
        · exact absurd h (by simp)
        · injection h with h
          subst h
          exact List.Forall₂.cons hfx ((ih ys).mp hm)
    · intro h
      cases h with
      | cons hab htail =>
        rw [mapOption, hab, (ih _).mpr htail]

theorem forall2_mem_right {R : α → β → Prop} {l : List α} {l' : List β}
    (h : List.Forall₂ R l l') {b : β} (hb : b ∈ l') : ∃ a ∈ l, R a b := by
  induction h with
  | nil => simp at hb
  | cons hab _ ih =>
    rcases List.mem_cons.mp hb with rfl | hb2
    · exact ⟨_, List.mem_cons_self _ _, hab⟩
    · obtain ⟨a, ha, hr⟩ := ih hb2
      exact ⟨a, List.mem_cons_of_mem _ ha, hr⟩

theorem forall2_map_eq {R : α → β → Prop} {l : List α} {l' : List β}
    (g : β → γ) (g' : α → γ) (h : List.Forall₂ R l l')
    (hg : ∀ a b, R a b → g b = g' a) : l'.map g = l.map g' := by
  induction h with
  | nil => rfl
  | cons hab _ ih => simp only [List.map_cons, ih, hg _ _ hab]

theorem dedupByKey_sublist (key : α → Cell) (l : List α) :
    (dedupByKey key l).Sublist l := by
  induction l with
  | nil => simp [dedupByKey]
  | cons x xs ih =>
    rw [dedupByKey]
    exact ((List.filter_sublist _).trans ih).cons₂ x

theorem mem_of_mem_dedupByKey {key : α → Cell} {l : List α} {a : α}
    (h : a ∈ dedupByKey key l) : a ∈ l :=
  (dedupByKey_sublist key l).mem h

theorem map_filter_not_key (key : α → Cell) (k : Cell) (l : List α) :
    (l.filter (fun y => ¬ key y = k)).map key = (l.map key).filter (fun c => ¬ c = k) := by
  induction l with
  | nil => rfl
  | cons x xs ih =>
    simp only [decide_not] at ih
    by_cases h : key x = k <;> simp [List.filter_cons, h, ih]

theorem map_key_dedupByKey (key : α → Cell) (l : List α) :
    (dedupByKey key l).map key = dedupByKey (fun c => c) (l.map key) := by
  induction l with
  | nil => simp [dedupByKey]
  | cons x xs ih =>
    simp only [dedupByKey, List.map_cons]
    rw [map_filter_not_key, ih]

theorem nodup_dedupCells (l : List Cell) : (dedupByKey (fun c => c) l).Nodup := by
  induction l with
  | nil => simp [dedupByKey]
  | cons x xs ih =>
    rw [dedupByKey]
    refine List.Nodup.cons (fun hmem => ?_) (List.Nodup.filter _ ih)
    have h2 := (List.mem_filter.mp hmem).2
    simp at h2

theorem mem_dedupCells (l : List Cell) (a : Cell) :
    a ∈ dedupByKey (fun c => c) l ↔ a ∈ l := by
  induction l with
  | nil => simp [dedupByKey]
  | cons x xs ih =>
    rw [dedupByKey]
    simp only [List.mem_cons]
    constructor
    · rintro (rfl | h)
      · exact Or.inl rfl
      · exact Or.inr (ih.mp (List.mem_filter.mp h).1)
    · rintro (rfl | h)
      · exact Or.inl rfl
      · by_cases hax : a = x
        · exact Or.inl hax
        · exact Or.inr (List.mem_filter.mpr ⟨ih.mpr h, by simpa using hax⟩)

theorem dedupByKey_eq_self (key : α → Cell) (l : List α)
    (h : (l.map key).Nodup) : dedupByKey key l = l := by
  induction l with
  | nil => simp [dedupByKey]
  | cons x xs ih =>
    rw [List.map_cons, List.nodup_cons] at h
    rw [dedupByKey, ih h.2]
    congr 1
    refine List.filter_eq_self.mpr fun y hy => ?_
    simp only [decide_eq_true_eq]
    intro hkey
    exact h.1 (hkey ▸ List.mem_map_of_mem key hy)

theorem filter_dedupByKey (key : α → Cell) (k : Cell) (l : List α) :
    (dedupByKey key l).filter (fun x => key x = k)
      = (l.find? (fun x => key x = k)).toList := by
  induction l with
  | nil => simp [dedupByKey]
  | cons x xs ih =>
    rw [dedupByKey]
    by_cases hx : key x = k
    · rw [List.filter_cons_of_pos (by simpa using hx), List.find?_cons_of_pos _ (by simpa using hx)]
      have hnil : ((dedupByKey key xs).filter (fun y => ¬ key y = key x)).filter
          (fun x => key x = k) = [] := by
        refine List.filter_eq_nil_iff.mpr fun a ha => ?_
        have h2 := (List.mem_filter.mp ha).2
        simp only [decide_eq_true_eq] at h2 ⊢
        exact hx ▸ h2
      rw [hnil]
      rfl
    · rw [List.filter_cons_of_neg (by simpa using hx), List.find?_cons_of_neg _ (by simpa using hx),
        ← ih, List.filter_filter]
      refine List.filter_congr fun a _ => ?_
      by_cases h : key a = k
      · have hne : ¬ k = key x := fun hh => hx hh.symm
        simp [h, hne]
      · simp [h]

theorem length_filter_or_disjoint (p q : α → Bool) (l : List α)
    (hpq : ∀ x ∈ l, ¬ (p x = true ∧ q x = true)) :
    (l.filter (fun x => p x || q x)).length = (l.filter p).length + (l.filter q).length := by
  induction l with
  | nil => rfl
  | cons x xs ih =>
    have ih2 := ih fun y hy => hpq y (List.mem_cons_of_mem _ hy)
    have hx := hpq x (List.mem_cons_self _ _)
    by_cases hp : p x
    · have hq : ¬ q x = true := fun hq => hx ⟨hp, hq⟩
      rw [List.filter_cons_of_pos (by simp [hp]), List.filter_cons_of_pos hp,
        List.filter_cons_of_neg hq]
      simp only [List.length_cons]
      omega
    · by_cases hq : q x
      · rw [List.filter_cons_of_pos (by simp [hq]), List.filter_cons_of_neg hp,
          List.filter_cons_of_pos hq]
        simp only [List.length_cons]
        omega
      · rw [List.filter_cons_of_neg (by simp [hp, hq]), List.filter_cons_of_neg hp,
          List.filter_cons_of_neg hq]
        exact ih2

/-! ## Structure of a successful clean_data run -/

theorem clean_data_eq_some {rows out : List Row} :
    clean_data rows = some out ↔
      ∃ r1, mapOption (cleanRowNum (seniorObj rows)) rows = some r1 ∧
        ¬ (dedupByKey rowKey r1 ≠ [] ∧ ¬ (dedupByKey rowKey r1).any (fun r => r.gender.isStr)) ∧
        out = (dedupByKey rowKey r1).map cleanRowStr := by
  unfold clean_data
  rcases hm : mapOption (cleanRowNum (seniorObj rows)) rows with _ | r1
  · simp
  · show (if dedupByKey rowKey r1 ≠ [] ∧ ¬ (dedupByKey rowKey r1).any (fun r => r.gender.isStr)
        then (Option.none : Option (List Row))
        else some ((dedupByKey rowKey r1).map cleanRowStr)) = some out ↔ _
    by_cases hc : dedupByKey rowKey r1 ≠ [] ∧ ¬ (dedupByKey rowKey r1).any (fun r => r.gender.isStr)
    · rw [if_pos hc]
      simp only [false_iff, reduceCtorEq, false_and]
      rintro ⟨r1', hr1, hnc, _⟩
      injection hr1 with e
      subst e
      exact hnc hc
    · rw [if_neg hc]
      constructor
      · intro h
        injection h with h
        exact ⟨r1, rfl, hc, h.symm⟩
      · rintro ⟨r1', hr1, _, rfl⟩
        injection hr1 with e
        subst e
        rfl

theorem clean_data_mem_rev {rows out : List Row} (h : clean_data rows = some out) :
    ∀ x ∈ out, ∃ r ∈ rows, ∃ rn, cleanRowNum (seniorObj rows) r = some rn ∧ x = cleanRowStr rn := by
  obtain ⟨r1, hm, _, rfl⟩ := clean_data_eq_some.mp h
  intro x hx
  obtain ⟨rn, hrn, rfl⟩ := List.mem_map.mp hx
  obtain ⟨r, hr, hfr⟩ :=
    forall2_mem_right ((mapOption_forall2 _ _ _).mp hm) (mem_of_mem_dedupByKey hrn)
  exact ⟨r, hr, rn, hfr, rfl⟩

theorem cleanRowNum_eq_some {sObj : Bool} {r rn : Row} (h : cleanRowNum sObj r = some rn) :
    ∃ sc, seniorClean sObj r.seniorCitizen = some sc ∧
      rn = { r with totalCharges := Cell.ofOpt (imputeTotalCharges r),
                    monthlyCharges := Cell.ofOpt (parse_total_charges r.monthlyCharges),
                    tenure := Cell.int (cleanTenure r.tenure),
                    seniorCitizen := Cell.int sc } := by
  unfold cleanRowNum at h
  rcases hs : seniorClean sObj r.seniorCitizen with _ | sc <;> rw [hs] at h
  · exact absurd h (by simp)
  · injection h with h
    exact ⟨sc, rfl, h.symm⟩

theorem cleanRowStr_stable_fields (r : Row) :
    (cleanRowStr r).customerID = r.customerID ∧
    (cleanRowStr r).seniorCitizen = r.seniorCitizen ∧
    (cleanRowStr r).tenure = r.tenure ∧
    (cleanRowStr r).monthlyCharges = r.monthlyCharges ∧
    (cleanRowStr r).totalCharges = r.totalCharges ∧
    (cleanRowStr r).contract = r.contract ∧
    (cleanRowStr r).internetService = r.internetService ∧
    (cleanRowStr r).paymentMethod = r.paymentMethod := by
  unfold cleanRowStr
  exact ⟨rfl, rfl, rfl, rfl, rfl, rfl, rfl, rfl⟩

theorem cleanRowNum_customerID {sObj : Bool} {r rn : Row}
    (h : cleanRowNum sObj r = some rn) : rn.customerID = r.customerID := by
  obtain ⟨sc, _, rfl⟩ := cleanRowNum_eq_some h
  rfl

theorem ratTruncInt_nonneg {q : ℚ} (h : 0 ≤ q) : 0 ≤ ratTruncInt q :=
  Int.tdiv_nonneg (Rat.num_nonneg.mpr h) (Int.ofNat_nonneg _)

/-! ## Concrete example rows -/

/-- A representative raw CSV row (all cells string-typed, as produced by the
CSV reader). -/
def exRowBase : Row :=
  { customerID := Cell.str "7590-VHVEG", gender := Cell.str "Female",
    seniorCitizen := Cell.str "0", partner := Cell.str "Yes",
    dependents := Cell.str "No", tenure := Cell.str "5",
    phoneService := Cell.str "Yes", multipleLines := Cell.str "No",
    internetService := Cell.str "DSL", onlineSecurity := Cell.str "No",
    onlineBackup := Cell.str "Yes", deviceProtection := Cell.str "No",
    techSupport := Cell.str "No", streamingTV := Cell.str "No",
    streamingMovies := Cell.str "No", contract := Cell.str "Month-to-month",
    paperlessBilling := Cell.str "Yes", paymentMethod := Cell.str "Electronic check",
    monthlyCharges := Cell.str "70.0", totalCharges := Cell.str "350.0",
    churn := Cell.str "No" }

/-- A raw row whose tenure field holds the textual value `"-5"`. -/
def exRowNegTenure : Row := { exRowBase with tenure := Cell.str "-5" }

/-- A raw row with an empty `TotalCharges` cell (`MonthlyCharges = 70.0`,
`tenure = 5`). -/
def exRowEmptyTC : Row := { exRowBase with totalCharges := Cell.str "" }

/-- A record set whose `SeniorCitizen` column mixes the string `"Yes"` with
the native integer `1`, making the column object-typed. -/
def exRowsMixedSenior : List Row :=
  [{ exRowBase with seniorCitizen := Cell.str "Yes" },
   { exRowBase with customerID := Cell.str "C2", seniorCitizen := Cell.int 1 }]

/-! ## C2: tenure after cleaning -/

/-- C2, amended: after `clean_data` every row's tenure is an integer, a
missing or unparseable tenure becomes zero, and the result is non-negative
whenever the parsed input value is non-negative.  (The unamended claim —
non-negativity for every input — fails on a negative textual tenure, see
the counterexample.) -/
theorem C2_tenure_integral (rows out : List Row) (h : clean_data rows = some out) :
    ∀ x ∈ out, ∃ r ∈ rows, x.tenure = Cell.int (cleanTenure r.tenure) ∧
      (toNumericCell r.tenure = Option.none → x.tenure = Cell.int 0) ∧
      (∀ q, toNumericCell r.tenure = some q → 0 ≤ q →
        ∃ n : Int, x.tenure = Cell.int n ∧ 0 ≤ n) := by
  intro x hx
  obtain ⟨r, hr, rn, hrn, rfl⟩ := clean_data_mem_rev h x hx
  obtain ⟨sc, _, rfl⟩ := cleanRowNum_eq_some hrn
  refine ⟨r, hr, rfl, ?_, ?_⟩
  · intro hnone
    show Cell.int (cleanTenure r.tenure) = Cell.int 0
    unfold cleanTenure
    rw [hnone]
    rfl
  · intro q hq hq0
    refine ⟨cleanTenure r.tenure, rfl, ?_⟩
    unfold cleanTenure
    rw [hq]
    exact ratTruncInt_nonneg hq0

/-- Witness for C2 at a concrete input. -/
theorem C2_tenure_integral_witness :
    clean_data [exRowBase] = some ((clean_data [exRowBase]).getD []) ∧
    ∀ x ∈ (clean_data [exRowBase]).getD [], ∃ r ∈ [exRowBase],
      x.tenure = Cell.int (cleanTenure r.tenure) ∧
      (toNumericCell r.tenure = Option.none → x.tenure = Cell.int 0) ∧
      (∀ q, toNumericCell r.tenure = some q → 0 ≤ q →
        ∃ n : Int, x.tenure = Cell.int n ∧ 0 ≤ n) :=
  ⟨by decide, C2_tenure_integral [exRowBase] ((clean_data [exRowBase]).getD [])
    (by decide)⟩

/-- Counterexample to C2 as stated: the input tenure `"-5"` parses to `-5`,
so the cleaned record set has a negative tenure. -/
theorem C2_counterexample :
    (clean_data [exRowNegTenure]).map (List.map (fun r => r.tenure))
      = some [Cell.int (-5)] ∧ ((-5 : Int) < 0) := by
  constructor
  · decide
  · decide

/-! ## C4: TotalCharges imputation -/

/-- C4: for every row of a successfully cleaned record set that came from
an input row whose `TotalCharges` failed monetary parsing (missing, empty,
or unparseable), the output `TotalCharges` is `MonthlyCharges * tenure`
(with NaN propagating when `MonthlyCharges` itself is NaN). -/
theorem C4_totalcharges_imputed (rows out : List Row) (h : clean_data rows = some out) :
    ∀ x ∈ out, ∃ r ∈ rows,
      x.totalCharges = Cell.ofOpt (imputeTotalCharges r) ∧
      (parse_total_charges r.totalCharges = Option.none →
        x.totalCharges = Cell.ofOpt ((parse_total_charges r.monthlyCharges).map
          (fun m => m * (cleanTenure r.tenure : ℚ)))) := by
  intro x hx
  obtain ⟨r, hr, rn, hrn, rfl⟩ := clean_data_mem_rev h x hx
  obtain ⟨sc, _, rfl⟩ := cleanRowNum_eq_some hrn
  refine ⟨r, hr, rfl, fun hnone => ?_⟩
  show Cell.ofOpt (imputeTotalCharges r) = _
  unfold imputeTotalCharges
  rw [hnone]

/-- Witness for C4: a row with empty `TotalCharges`, `MonthlyCharges="70.0"`
and `tenure="5"` cleans to `TotalCharges = 350.0`. -/
theorem C4_totalcharges_imputed_witness :
    (∀ x ∈ (clean_data [exRowEmptyTC]).getD [], ∃ r ∈ [exRowEmptyTC],
      x.totalCharges = Cell.ofOpt (imputeTotalCharges r) ∧
      (parse_total_charges r.totalCharges = Option.none →
        x.totalCharges = Cell.ofOpt ((parse_total_charges r.monthlyCharges).map
          (fun m => m * (cleanTenure r.tenure : ℚ))))) ∧
    (clean_data [exRowEmptyTC]).map (List.map (fun r => r.totalCharges))
      = some [Cell.float 350] :=
  ⟨fun x hx => C4_totalcharges_imputed [exRowEmptyTC]
    ((clean_data [exRowEmptyTC]).getD []) (by decide) x hx, by decide⟩

/-! ## C5: SeniorCitizen normalisation -/

/-- C5, amended: every cleaned row's `SeniorCitizen` is the integer
produced by `seniorClean`; on an object-typed (string-containing) column
the string inputs `"Yes"`/`"1"` map to 1 and `"No"`/`"0"` to 0, and on a
purely numeric column the native 1/0 pass through — but a native numeric 1
sitting in a mixed (object-typed) column is unmapped and becomes 0, contrary
to the unamended claim. -/
theorem C5_senior_normalised (rows out : List Row) (h : clean_data rows = some out) :
    (∀ x ∈ out, ∃ r ∈ rows, ∃ n : Int,
        seniorClean (seniorObj rows) r.seniorCitizen = some n ∧
        x.seniorCitizen = Cell.int n) ∧
    seniorMapObj (Cell.str "Yes") = 1 ∧ seniorMapObj (Cell.str "1") = 1 ∧
    seniorMapObj (Cell.str "No") = 0 ∧ seniorMapObj (Cell.str "0") = 0 ∧
    cellAsInt (Cell.int 1) = some 1 ∧ cellAsInt (Cell.int 0) = some 0 ∧
    seniorMapObj (Cell.int 1) = 0 := by
  refine ⟨?_, rfl, rfl, rfl, rfl, rfl, rfl, rfl⟩
  intro x hx
  obtain ⟨r, hr, rn, hrn, rfl⟩ := clean_data_mem_rev h x hx
  obtain ⟨sc, hs, rfl⟩ := cleanRowNum_eq_some hrn
  exact ⟨r, hr, sc, hs, rfl⟩

/-- Witness for C5 at a concrete input. -/
theorem C5_senior_normalised_witness :
    (∀ x ∈ (clean_data [exRowBase]).getD [], ∃ r ∈ [exRowBase], ∃ n : Int,
        seniorClean (seniorObj [exRowBase]) r.seniorCitizen = some n ∧
        x.seniorCitizen = Cell.int n) ∧
    seniorMapObj (Cell.str "Yes") = 1 ∧ seniorMapObj (Cell.str "1") = 1 ∧
    seniorMapObj (Cell.str "No") = 0 ∧ seniorMapObj (Cell.str "0") = 0 ∧
    cellAsInt (Cell.int 1) = some 1 ∧ cellAsInt (Cell.int 0) = some 0 ∧
    seniorMapObj (Cell.int 1) = 0 :=
  C5_senior_normalised [exRowBase] ((clean_data [exRowBase]).getD []) (by decide)

/-- Counterexample to C5 as stated: in a mixed `SeniorCitizen` column
(`"Yes"` string alongside the native integer `1`), the native `1` is
unmapped by the string dictionary and normalises to `0`, not `1`. -/
theorem C5_counterexample :
    (clean_data exRowsMixedSenior).map (List.map (fun r => r.seniorCitizen))
      = some [Cell.int 1, Cell.int 0] ∧ Cell.int 0 ≠ Cell.int 1 := by
  constructor
  · decide
  · decide

/-! ## C3: deduplication by customerID -/

theorem find?_forall2 {sObj : Bool} {rows r1 : List Row}
    (hf : List.Forall₂ (fun a b => cleanRowNum sObj a = some b) rows r1) (k : Cell) :
    ∀ b, r1.find? (fun x => rowKey x = k) = some b →
      ∃ a, rows.find? (fun x => rowKey x = k) = some a ∧ cleanRowNum sObj a = some b := by
  induction hf with
  | nil => intro b hb; simp at hb
  | @cons a b rows' r1' hab htail ih =>
    intro c hc
    have hkey : rowKey b = rowKey a := by
      unfold rowKey
      exact cleanRowNum_customerID hab
    by_cases hk : rowKey b = k
    · rw [List.find?_cons_of_pos _ (by simpa using hk)] at hc
      injection hc with hc
      subst hc
      exact ⟨a, List.find?_cons_of_pos _ (by simpa using (hkey ▸ hk : rowKey a = k)), hab⟩
    · rw [List.find?_cons_of_neg _ (by simpa using hk)] at hc
      obtain ⟨a2, ha2, hca⟩ := ih c hc
      refine ⟨a2, ?_, hca⟩
      rw [List.find?_cons_of_neg _ (by simpa using (fun hh : rowKey a = k => hk (hkey ▸ hh)))]
      exact ha2

/-- C3: after a successful `clean_data` run the `customerID` column is
duplicate-free, and for every key present in the input exactly one output
row carries it — the cleaned image of the first input row with that key, in
original input order. -/
theorem C3_dedup_first_wins (rows out : List Row) (h : clean_data rows = some out) :
    (out.map (fun r => r.customerID)).Nodup ∧
    ∀ k ∈ rows.map (fun r => r.customerID),
      ∃ r rn, rows.find? (fun x => rowKey x = k) = some r ∧
        cleanRowNum (seniorObj rows) r = some rn ∧
        out.filter (fun x => rowKey x = k) = [cleanRowStr rn] := by
  obtain ⟨r1, hm, _, rfl⟩ := clean_data_eq_some.mp h
  have hf2 := (mapOption_forall2 _ _ _).mp hm
  have hkeys : r1.map rowKey = rows.map rowKey :=
    forall2_map_eq rowKey rowKey hf2 (fun a b hab => cleanRowNum_customerID hab)
  have hmapkey : ((dedupByKey rowKey r1).map cleanRowStr).map (fun r => r.customerID)
      = (dedupByKey rowKey r1).map rowKey := by
    rw [List.map_map]
    exact List.map_congr_left fun x _ => (cleanRowStr_stable_fields x).1
  constructor
  · rw [hmapkey, map_key_dedupByKey]
    exact nodup_dedupCells _
  · intro k hk
    have hk1 : k ∈ r1.map rowKey := by
      rw [hkeys]
      exact hk
    have hsome : (r1.find? (fun x => rowKey x = k)).isSome := by
      rw [List.find?_isSome]
      obtain ⟨b, hb, hbk⟩ := List.mem_map.mp hk1
      exact ⟨b, hb, by simpa using hbk⟩
    obtain ⟨rn, hrn⟩ := Option.isSome_iff_exists.mp hsome
    obtain ⟨r, hr, hcr⟩ := find?_forall2 hf2 k rn hrn
    refine ⟨r, rn, hr, hcr, ?_⟩
    have hstep : ((dedupByKey rowKey r1).map cleanRowStr).filter (fun x => rowKey x = k)
        = ((dedupByKey rowKey r1).filter (fun x => rowKey x = k)).map cleanRowStr := by
      rw [List.filter_map]
      refine congrArg _ (List.filter_congr fun x _ => ?_)
      show decide (rowKey (cleanRowStr x) = k) = decide (rowKey x = k)
      unfold rowKey
      rw [(cleanRowStr_stable_fields x).1]
    rw [hstep, filter_dedupByKey, hrn]
    rfl

/-- Witness for C3: two raw rows share `customerID` and one row survives. -/
theorem C3_dedup_first_wins_witness :
    ((((clean_data [exRowBase, { exRowBase with tenure := Cell.str "9" }]).getD []).map
        (fun r => r.customerID)).Nodup) ∧
    ∀ k ∈ [exRowBase, { exRowBase with tenure := Cell.str "9" }].map (fun r => r.customerID),
      ∃ r rn, [exRowBase, { exRowBase with tenure := Cell.str "9" }].find?
          (fun x => rowKey x = k) = some r ∧
        cleanRowNum (seniorObj [exRowBase, { exRowBase with tenure := Cell.str "9" }])
          r = some rn ∧
        ((clean_data [exRowBase, { exRowBase with tenure := Cell.str "9" }]).getD
          []).filter (fun x => rowKey x = k) = [cleanRowStr rn] :=
  C3_dedup_first_wins _ _ (by decide)

/-! ## C6 and C7: engineered features -/

theorem add_engineered_features_eq_some {rows : List Row} {out : List EnrichedRow}
    (h : add_engineered_features rows = some out) :
    out = rows.map (enrichRow (medianQ (rows.filterMap (fun r => r.monthlyCharges.toQ?)))) := by
  unfold add_engineered_features at h
  by_cases hc : rows.any (fun r => r.tenure.isStr || r.monthlyCharges.isStr || r.totalCharges.isStr)
  · rw [if_pos hc] at h
    exact absurd h (by simp)
  · rw [if_neg hc] at h
    injection h with h
    exact h.symm

/-- The five `tenure_group` labels. -/
def tenureGroupLabels : List String :=
  ["0-12 mois", "13-24 mois", "25-48 mois", "49-60 mois", "61+ mois"]

theorem tenureGroupOf_mem_of_le (q : ℚ) (h0 : 0 ≤ q) (h100 : q ≤ 100) :
    tenureGroupOf q ∈ tenureGroupLabels := by
  unfold tenureGroupOf tenureGroupLabels
  split_ifs with h1 h2 h3 h4 h5
  · simp
  · simp
  · simp
  · simp
  · simp
  · exfalso
    have g1 : 12 < q := by
      rcases not_and_or.mp h1 with h | h
      · exact absurd h0 h
      · exact lt_of_not_le h
    have g2 : 24 < q := by
      rcases not_and_or.mp h2 with h | h
      · exact absurd g1 h
      · exact lt_of_not_le h
    have g3 : 48 < q := by
      rcases not_and_or.mp h3 with h | h
      · exact absurd g2 h
      · exact lt_of_not_le h
    have g4 : 60 < q := by
      rcases not_and_or.mp h4 with h | h
      · exact absurd g3 h
      · exact lt_of_not_le h
    rcases not_and_or.mp h5 with h | h
    · exact h g4
    · exact h h100

/-- C6, amended: for every successfully enriched row whose (unchanged)
tenure carries a numeric value `q` with `0 ≤ q ≤ 100`, the derived
`tenure_group` is exactly one of the five fixed labels.  (The unamended
claim — one of the five labels for every tenure `≥ 0` — fails above the
last bin boundary 100, where `pd.cut` yields NaN and `astype(str)` the
string `"nan"`; see the counterexample.) -/
theorem C6_tenure_group_total (rows : List Row) (out : List EnrichedRow)
    (h : add_engineered_features rows = some out) :
    ∀ e ∈ out, ∀ q : ℚ, Cell.toQ? e.base.tenure = some q → 0 ≤ q → q ≤ 100 →
      ∃! lab, lab ∈ tenureGroupLabels ∧ e.tenure_group = lab := by
  intro e he q hq h0 h100
  rw [add_engineered_features_eq_some h] at he
  obtain ⟨r, hr, rfl⟩ := List.mem_map.mp he
  have hq2 : Cell.toQ? r.tenure = some q := hq
  have ht : (enrichRow (medianQ (rows.filterMap (fun r => r.monthlyCharges.toQ?))) r).tenure_group
      = tenureGroupOf q := by
    show cutCell tenureGroupOf r.tenure = _
    unfold cutCell
    rw [hq2]
  exact ⟨tenureGroupOf q, ⟨tenureGroupOf_mem_of_le q h0 h100, ht⟩,
    fun y hy => hy.2.symm.trans ht⟩

/-- A cleaned-form row (numeric tenure and charges), as feature engineering
receives it in the pipeline. -/
def exRowClean : Row :=
  { exRowBase with
      tenure := Cell.int 5
      seniorCitizen := Cell.int 0
      monthlyCharges := Cell.float 70
      totalCharges := Cell.float 350 }

/-- A cleaned-form row with tenure 101, beyond the last `pd.cut` bin. -/
def exRowClean101 : Row := { exRowClean with tenure := Cell.int 101 }

/-- Witness for C6 at a concrete input. -/
theorem C6_tenure_group_total_witness :
    add_engineered_features [exRowClean]
        = some ((add_engineered_features [exRowClean]).getD []) ∧
    ∀ e ∈ (add_engineered_features [exRowClean]).getD [], ∀ q : ℚ,
      Cell.toQ? e.base.tenure = some q → 0 ≤ q → q ≤ 100 →
      ∃! lab, lab ∈ tenureGroupLabels ∧ e.tenure_group = lab :=
  ⟨by decide, C6_tenure_group_total [exRowClean]
    ((add_engineered_features [exRowClean]).getD []) (by decide)⟩

/-- Counterexample to C6 as stated: tenure `101 ≥ 0` falls outside every
bin, so `tenure_group` is the string `"nan"`, not one of the five labels. -/
theorem C6_counterexample :
    (add_engineered_features [exRowClean101]).map (List.map (fun e => e.tenure_group))
      = some ["nan"] ∧ "nan" ∉ tenureGroupLabels ∧
      Cell.toQ? exRowClean101.tenure = some 101 ∧ (0 : ℚ) ≤ 101 := by
  refine ⟨by decide, by decide, by decide, by decide⟩

/-- C7: `add_engineered_features` only appends columns — the output has the
same length and order, every pre-existing column (the whole base row) is
unchanged, and the result is a function of the input record set alone. -/
theorem C7_enrich_frame (rows : List Row) (out : List EnrichedRow)
    (h : add_engineered_features rows = some out) :
    out.map (fun e => e.base) = rows ∧ out.length = rows.length ∧
    ∀ out2, add_engineered_features rows = some out2 → out2 = out := by
  have he := add_engineered_features_eq_some h
  subst he
  refine ⟨?_, by rw [List.length_map], ?_⟩
  · rw [List.map_map]
    exact (List.map_congr_left fun r _ => rfl).trans (List.map_id rows)
  · intro out2 h2
    have := add_engineered_features_eq_some h2
    exact this

/-- Witness for C7 at a concrete input. -/
theorem C7_enrich_frame_witness :
    ((add_engineered_features [exRowClean, exRowClean101]).getD []).map (fun e => e.base)
        = [exRowClean, exRowClean101] ∧
    ((add_engineered_features [exRowClean, exRowClean101]).getD []).length
        = [exRowClean, exRowClean101].length ∧
    ∀ out2, add_engineered_features [exRowClean, exRowClean101] = some out2 →
      out2 = (add_engineered_features [exRowClean, exRowClean101]).getD [] :=
  C7_enrich_frame _ _ (by decide)

/-! ## Structure of create_churn_insights -/

theorem create_churn_insights_eq_some {rows : List EnrichedRow} {source : String}
    {ins : List InsightRow} (h : create_churn_insights rows source = some ins) :
    ins =
      dimInsights (churnObj rows) "churn_by_contract" "Contract" Cell.pyStr
        (fun r => r.base.contract) rows source ++
      dimInsights (churnObj rows) "churn_by_internet" "InternetService" Cell.pyStr
        (fun r => r.base.internetService) rows source ++
      dimInsights (churnObj rows) "churn_by_payment" "PaymentMethod" Cell.pyStr
        (fun r => r.base.paymentMethod) rows source ++
      dimInsights (churnObj rows) "churn_by_tenure_group" "tenure_group" Cell.pyStr
        (fun r => Cell.str r.tenure_group) rows source ++
      dimInsights (churnObj rows) "churn_by_gender" "gender" Cell.pyStr
        (fun r => r.base.gender) rows source ++
      dimInsights (churnObj rows) "churn_by_senior" "SeniorCitizen"
        (fun k => if cellEqOne k then "Senior" else "Non-Senior")
        (fun r => r.base.seniorCitizen) rows source ++
      dimInsights (churnObj rows) "churn_by_charges_group" "monthly_charges_group" Cell.pyStr
        (fun r => Cell.str r.monthly_charges_group) rows source ++
      [mkInsight (churnObj rows) "overall_summary" "ALL" "Total" rows source] := by
  unfold create_churn_insights at h
  by_cases hc : rows.any (fun r =>
      r.base.tenure.isStr || r.base.monthlyCharges.isStr || r.base.totalCharges.isStr)
  · rw [if_pos hc] at h
    exact absurd h (by simp)
  · rw [if_neg hc] at h
    injection h with h
    exact h.symm

theorem mem_dimInsights_dimension {chObj : Bool} {nm dim : String} {catOf : Cell → String}
    {key : EnrichedRow → Cell} {rows : List EnrichedRow} {source : String} (i : InsightRow)
    (hi : i ∈ dimInsights chObj nm dim catOf key rows source) : i.dimension = dim := by
  obtain ⟨k, _, rfl⟩ := List.mem_map.mp hi
  rfl

theorem filter_dim_dimInsights_of_ne {chObj : Bool} {nm dim : String} {catOf : Cell → String}
    {key : EnrichedRow → Cell} {rows : List EnrichedRow} {source : String} {d : String}
    (hne : ¬ dim = d) :
    (dimInsights chObj nm dim catOf key rows source).filter (fun i => i.dimension = d) = [] :=
  List.filter_eq_nil_iff.mpr fun i hi => by
    simp [mem_dimInsights_dimension i hi, hne]

theorem filter_dim_dimInsights_self {chObj : Bool} {nm dim : String} {catOf : Cell → String}
    {key : EnrichedRow → Cell} {rows : List EnrichedRow} {source : String} :
    (dimInsights chObj nm dim catOf key rows source).filter (fun i => i.dimension = dim)
      = dimInsights chObj nm dim catOf key rows source :=
  List.filter_eq_self.mpr fun i hi => by
    simp [mem_dimInsights_dimension i hi]

theorem filter_overall_dimInsights {chObj : Bool} {nm dim : String} {catOf : Cell → String}
    {key : EnrichedRow → Cell} {rows : List EnrichedRow} {source : String}
    (hne : ¬ dim = "ALL") :
    (dimInsights chObj nm dim catOf key rows source).filter
      (fun i => i.dimension = "ALL" ∧ i.category = "Total") = [] :=
  List.filter_eq_nil_iff.mpr fun i hi => by
    simp [mem_dimInsights_dimension i hi, hne]

/-- Total of the `total_customers` column over a list of insight rows. -/
def sumTotalCustomers (l : List InsightRow) : Nat :=
  (l.map (fun i => i.total_customers)).sum

theorem sumTotalCustomers_append (l1 l2 : List InsightRow) :
    sumTotalCustomers (l1 ++ l2) = sumTotalCustomers l1 + sumTotalCustomers l2 := by
  simp [sumTotalCustomers]

theorem sum_counts_nodup (key : EnrichedRow → Cell) (rows : List EnrichedRow)
    (ks : List Cell) (h : ks.Nodup) :
    ((ks.map (fun k => (rows.filter (fun r => key r = k)).length)).sum)
      = (rows.filter (fun r => key r ∈ ks)).length := by
  induction ks with
  | nil => simp
  | cons k ks ih =>
    rw [List.nodup_cons] at h
    rw [List.map_cons, List.sum_cons, ih h.2]
    have hdisj : ∀ x ∈ rows, ¬ ((decide (key x = k)) = true ∧ (decide (key x ∈ ks)) = true) := by
      rintro x _ ⟨h1, h2⟩
      simp only [decide_eq_true_eq] at h1 h2
      exact h.1 (h1 ▸ h2)
    calc (rows.filter (fun r => key r = k)).length + (rows.filter (fun r => key r ∈ ks)).length
        = (rows.filter (fun r => decide (key r = k) || decide (key r ∈ ks))).length :=
          (length_filter_or_disjoint _ _ rows hdisj).symm
      _ = (rows.filter (fun r => key r ∈ k :: ks)).length := by
          refine congrArg _ (List.filter_congr fun r _ => ?_)
          simp [List.mem_cons]

theorem mem_groupbyKeys (key : EnrichedRow → Cell) (rows : List EnrichedRow) (c : Cell) :
    c ∈ groupbyKeys key rows ↔ (c ∈ rows.map key ∧ ¬ c = Cell.none) := by
  unfold groupbyKeys
  rw [mem_dedupCells, List.mem_filter]
  simp

theorem sumTC_dimInsights (chObj : Bool) (nm dim : String) (catOf : Cell → String)
    (key : EnrichedRow → Cell) (rows : List EnrichedRow) (source : String) :
    sumTotalCustomers (dimInsights chObj nm dim catOf key rows source)
      = (rows.filter (fun r => ¬ key r = Cell.none)).length := by
  unfold sumTotalCustomers dimInsights
  rw [List.map_map]
  have h1 : ((fun i : InsightRow => i.total_customers) ∘ fun k =>
      mkInsight chObj nm dim (catOf k) (rows.filter (fun r => key r = k)) source)
      = fun k => (rows.filter (fun r => key r = k)).length := rfl
  rw [h1, sum_counts_nodup key rows (groupbyKeys key rows)
    (by unfold groupbyKeys; exact nodup_dedupCells _)]
  refine congrArg _ (List.filter_congr fun r hr => ?_)
  by_cases hn : key r = Cell.none
  · have hnm : ¬ key r ∈ groupbyKeys key rows :=
      fun hmem => ((mem_groupbyKeys key rows _).mp hmem).2 hn
    rw [hn] at hnm
    simp [hn, hnm]
  · have hm : key r ∈ groupbyKeys key rows :=
      (mem_groupbyKeys key rows _).mpr ⟨List.mem_map_of_mem key hr, hn⟩
    simp [hn, hm]

theorem countP_filterMap_id (l : List (Option Bool)) :
    (l.filterMap id).countP (fun b => b) = l.countP (fun o => o = some true) := by
  induction l with
  | nil => rfl
  | cons o os ih =>
    cases o with
    | none => simp [List.filterMap_cons, List.countP_cons, ih]
    | some b => cases b <;> simp [List.filterMap_cons, List.countP_cons, ih]

theorem length_filterMap_id_of_no_none (l : List (Option Bool))
    (h : ∀ o ∈ l, ¬ o = Option.none) : (l.filterMap id).length = l.length := by
  induction l with
  | nil => rfl
  | cons o os ih =>
    cases o with
    | none => exact absurd rfl (h _ (List.mem_cons_self _ _))
    | some b =>
      simp only [List.filterMap_cons, id, List.length_cons]
      rw [ih (fun o ho => h o (List.mem_cons_of_mem _ ho))]

/-! ## C8: the overall-summary row -/

theorem filter_overall_create {rows : List EnrichedRow} {source : String}
    {ins : List InsightRow} (h : create_churn_insights rows source = some ins) :
    ins.filter (fun i => i.dimension = "ALL" ∧ i.category = "Total")
      = [mkInsight (churnObj rows) "overall_summary" "ALL" "Total" rows source] := by
  rw [create_churn_insights_eq_some h]
  simp only [List.filter_append]
  rw [filter_overall_dimInsights (by decide), filter_overall_dimInsights (by decide),
    filter_overall_dimInsights (by decide), filter_overall_dimInsights (by decide),
    filter_overall_dimInsights (by decide), filter_overall_dimInsights (by decide),
    filter_overall_dimInsights (by decide)]
  simp only [List.nil_append]
  rw [List.filter_cons_of_pos (by simp [mkInsight]), List.filter_nil]

/-- C8, amended: every successful aggregation of a non-empty enriched
record set emits exactly one row with `dimension="ALL"` and
`category="Total"`, whose `total_customers` is the input row count; its
`churn_rate` is `100 × churned/total` rounded to 2 decimals *provided*
every row's `Churn` value resolves to a boolean — pandas `mean()` divides
by the count of resolvable values only, so an unmapped `Churn` value (NaN
flag) shrinks the denominator, contrary to the unamended claim (see the
counterexample). -/
theorem C8_overall_summary (rows : List EnrichedRow) (source : String) (ins : List InsightRow)
    (h : create_churn_insights rows source = some ins) (hne : rows ≠ []) :
    (ins.filter (fun i => i.dimension = "ALL" ∧ i.category = "Total")).length = 1 ∧
    ∀ i ∈ ins.filter (fun i => i.dimension = "ALL" ∧ i.category = "Total"),
      i.total_customers = rows.length ∧
      ((∀ r ∈ rows, ¬ churnFlag (churnObj rows) r.base.churn = Option.none) →
        i.churn_rate = some (roundQ 2 (100 *
          ((rows.countP (fun r => churnFlag (churnObj rows) r.base.churn = some true) : ℚ)
            / (rows.length : ℚ))))) := by
  rw [filter_overall_create h]
  refine ⟨rfl, ?_⟩
  intro i hi
  rw [List.mem_singleton] at hi
  subst hi
  refine ⟨rfl, fun hres => ?_⟩
  have hflags : ∀ o ∈ rows.map (fun r => churnFlag (churnObj rows) r.base.churn),
      ¬ o = Option.none := by
    intro o ho
    obtain ⟨r, hr, rfl⟩ := List.mem_map.mp ho
    exact hres r hr
  have hlen : ((rows.map (fun r => churnFlag (churnObj rows) r.base.churn)).filterMap id).length
      = rows.length := by
    rw [length_filterMap_id_of_no_none _ hflags, List.length_map]
  have hcnt : ((rows.map (fun r => churnFlag (churnObj rows) r.base.churn)).filterMap
        id).countP (fun b => b)
      = rows.countP (fun r => churnFlag (churnObj rows) r.base.churn = some true) := by
    rw [countP_filterMap_id]
    exact List.countP_map _ _ _
  show (meanBool (rows.map (fun r => churnFlag (churnObj rows) r.base.churn))).map
      (fun m => roundQ 2 (m * 100)) = _
  unfold meanBool
  rw [if_neg (by rw [hlen]; intro h0; exact hne (List.length_eq_zero.mp h0))]
  rw [Option.map_some']
  congr 1
  rw [hcnt, hlen, mul_comm]

/-- An enriched record set, produced by the feature-engineering stage, with
fully resolvable `Churn` values. -/
def exEnrOk : List EnrichedRow :=
  (add_engineered_features
    [{ exRowClean with churn := Cell.str "Yes" },
     { exRowClean with customerID := Cell.str "C2", churn := Cell.str "No" }]).getD []

/-- An enriched record set in which one row carries the cleaned-but-unmapped
`Churn` value `"Maybe"` (reachable: the cleaning stage title-cases unmapped
Yes/No values and passes them through). -/
def exEnrMaybe : List EnrichedRow :=
  (add_engineered_features
    [{ exRowClean with churn := Cell.str "Yes" },
     { exRowClean with customerID := Cell.str "C2", churn := Cell.str "Maybe" }]).getD []

/-- An enriched record set in which one row has a null `Contract`. -/
def exEnrNullContract : List EnrichedRow :=
  (add_engineered_features
    [{ exRowClean with churn := Cell.str "Yes" },
     { exRowClean with
         customerID := Cell.str "C2"
         churn := Cell.str "No"
         contract := Cell.none }]).getD []

/-- Witness for C8 at a concrete input. -/
theorem C8_overall_summary_witness :
    ((((create_churn_insights exEnrOk "csv").getD []).filter
        (fun i => i.dimension = "ALL" ∧ i.category = "Total")).length = 1) ∧
    ∀ i ∈ ((create_churn_insights exEnrOk "csv").getD []).filter
        (fun i => i.dimension = "ALL" ∧ i.category = "Total"),
      i.total_customers = exEnrOk.length ∧
      ((∀ r ∈ exEnrOk, ¬ churnFlag (churnObj exEnrOk) r.base.churn = Option.none) →
        i.churn_rate = some (roundQ 2 (100 *
          ((exEnrOk.countP (fun r => churnFlag (churnObj exEnrOk) r.base.churn = some true) : ℚ)
            / (exEnrOk.length : ℚ))))) :=
  C8_overall_summary exEnrOk "csv" ((create_churn_insights exEnrOk "csv").getD [])
    (by decide) (by decide)

/-- Counterexample to C8 as stated: with one `"Yes"` and one unmapped
`"Maybe"` churn value over two rows, the emitted overall `churn_rate` is
`100.0` (mean over the single resolvable flag) while the claimed formula
`100 × churned/total` rounds to `50`. -/
theorem C8_counterexample :
    (((create_churn_insights exEnrMaybe "csv").getD []).filterMap
        (fun i => if i.dimension = "ALL" ∧ i.category = "Total"
                  then some i.churn_rate else Option.none))
      = [some 100] ∧
    roundQ 2 (100 * ((1 : ℚ) / 2)) = 50 ∧ ¬ ((100 : ℚ) = 50) := by
  refine ⟨by decide, by decide, by decide⟩

/-! ## C9 and C10: per-dimension totals versus the overall total -/

/-- C9, amended: the `dimension="Contract"` insight rows' `total_customers`
sum to the number of input rows with a non-null `Contract` — which is the
full input row count only when no `Contract` is null, since pandas
`groupby` silently drops null keys (see the counterexample for a null
`Contract`). -/
theorem C9_contract_totals (rows : List EnrichedRow) (source : String) (ins : List InsightRow)
    (h : create_churn_insights rows source = some ins) :
    sumTotalCustomers (ins.filter (fun i => i.dimension = "Contract"))
      = (rows.filter (fun r => ¬ r.base.contract = Cell.none)).length := by
  rw [create_churn_insights_eq_some h]
  simp only [List.filter_append]
  rw [filter_dim_dimInsights_self, filter_dim_dimInsights_of_ne (by decide),
    filter_dim_dimInsights_of_ne (by decide), filter_dim_dimInsights_of_ne (by decide),
    filter_dim_dimInsights_of_ne (by decide), filter_dim_dimInsights_of_ne (by decide),
    filter_dim_dimInsights_of_ne (by decide),
    List.filter_cons_of_neg (by simp [mkInsight]), List.filter_nil]
  simp only [List.append_nil]
  exact sumTC_dimInsights _ _ _ _ _ _ _

/-- Witness for C9 at a concrete input with no null `Contract`. -/
theorem C9_contract_totals_witness :
    sumTotalCustomers (((create_churn_insights exEnrOk "csv").getD []).filter
        (fun i => i.dimension = "Contract"))
      = (exEnrOk.filter (fun r => ¬ r.base.contract = Cell.none)).length :=
  C9_contract_totals exEnrOk "csv" ((create_churn_insights exEnrOk "csv").getD []) (by decide)

/-- Counterexample to C9 as stated: with one of two rows carrying a null
`Contract`, the `dimension="Contract"` totals sum to 1, not the input row
count 2. -/
theorem C9_counterexample :
    sumTotalCustomers (((create_churn_insights exEnrNullContract "csv").getD []).filter
        (fun i => i.dimension = "Contract")) = 1 ∧
    exEnrNullContract.length = 2 ∧ ¬ ((1 : Nat) = 2) := by
  refine ⟨by decide, by decide, by decide⟩

/-- C10: for each grouping dimension the emitted `total_customers` sum only
over the rows whose key is non-null (null-keyed rows are silently dropped
by `groupby`), while the single `dimension="ALL"` row still counts every
input row; the `tenure_group`/`monthly_charges_group` keys are strings
(never null), so those dimensions always cover all rows. -/
theorem C10_null_group_keys (rows : List EnrichedRow) (source : String) (ins : List InsightRow)
    (h : create_churn_insights rows source = some ins) :
    sumTotalCustomers (ins.filter (fun i => i.dimension = "Contract"))
      = (rows.filter (fun r => ¬ r.base.contract = Cell.none)).length ∧
    sumTotalCustomers (ins.filter (fun i => i.dimension = "InternetService"))
      = (rows.filter (fun r => ¬ r.base.internetService = Cell.none)).length ∧
    sumTotalCustomers (ins.filter (fun i => i.dimension = "PaymentMethod"))
      = (rows.filter (fun r => ¬ r.base.paymentMethod = Cell.none)).length ∧
    sumTotalCustomers (ins.filter (fun i => i.dimension = "tenure_group")) = rows.length ∧
    sumTotalCustomers (ins.filter (fun i => i.dimension = "gender"))
      = (rows.filter (fun r => ¬ r.base.gender = Cell.none)).length ∧
    sumTotalCustomers (ins.filter (fun i => i.dimension = "SeniorCitizen"))
      = (rows.filter (fun r => ¬ r.base.seniorCitizen = Cell.none)).length ∧
    sumTotalCustomers (ins.filter (fun i => i.dimension = "monthly_charges_group"))
      = rows.length ∧
    (ins.filter (fun i => i.dimension = "ALL")).map (fun i => i.total_customers)
      = [rows.length] := by
  rw [create_churn_insights_eq_some h]
  refine ⟨?_, ?_, ?_, ?_, ?_, ?_, ?_, ?_⟩ <;>
    simp only [List.filter_append] <;>
    [skip; skip; skip; skip; skip; skip; skip;
     (rw [filter_dim_dimInsights_of_ne (by decide), filter_dim_dimInsights_of_ne (by decide),
        filter_dim_dimInsights_of_ne (by decide), filter_dim_dimInsights_of_ne (by decide),
        filter_dim_dimInsights_of_ne (by decide), filter_dim_dimInsights_of_ne (by decide),
        filter_dim_dimInsights_of_ne (by decide),
        List.filter_cons_of_pos (by simp [mkInsight]), List.filter_nil];
      rfl)]
  · rw [filter_dim_dimInsights_self, filter_dim_dimInsights_of_ne (by decide),
      filter_dim_dimInsights_of_ne (by decide), filter_dim_dimInsights_of_ne (by decide),
      filter_dim_dimInsights_of_ne (by decide), filter_dim_dimInsights_of_ne (by decide),
      filter_dim_dimInsights_of_ne (by decide),
      List.filter_cons_of_neg (by simp [mkInsight]), List.filter_nil]
    simp only [List.append_nil]
    exact sumTC_dimInsights _ _ _ _ _ _ _
  · rw [filter_dim_dimInsights_self, filter_dim_dimInsights_of_ne (by decide),
      filter_dim_dimInsights_of_ne (by decide), filter_dim_dimInsights_of_ne (by decide),
      filter_dim_dimInsights_of_ne (by decide), filter_dim_dimInsights_of_ne (by decide),
      filter_dim_dimInsights_of_ne (by decide),
      List.filter_cons_of_neg (by simp [mkInsight]), List.filter_nil]
    simp only [List.append_nil, List.nil_append]
    exact sumTC_dimInsights _ _ _ _ _ _ _
  · rw [filter_dim_dimInsights_self, filter_dim_dimInsights_of_ne (by decide),
      filter_dim_dimInsights_of_ne (by decide), filter_dim_dimInsights_of_ne (by decide),
      filter_dim_dimInsights_of_ne (by decide), filter_dim_dimInsights_of_ne (by decide),
      filter_dim_dimInsights_of_ne (by decide),
      List.filter_cons_of_neg (by simp [mkInsight]), List.filter_nil]
    simp only [List.append_nil, List.nil_append]
    exact sumTC_dimInsights _ _ _ _ _ _ _
  · rw [filter_dim_dimInsights_self, filter_dim_dimInsights_of_ne (by decide),
      filter_dim_dimInsights_of_ne (by decide), filter_dim_dimInsights_of_ne (by decide),
      filter_dim_dimInsights_of_ne (by decide), filter_dim_dimInsights_of_ne (by decide),
      filter_dim_dimInsights_of_ne (by decide),
      List.filter_cons_of_neg (by simp [mkInsight]), List.filter_nil]
    simp only [List.append_nil, List.nil_append]
    rw [sumTC_dimInsights]
    rw [List.filter_eq_self.mpr (fun r _ => by simp)]
  · rw [filter_dim_dimInsights_self, filter_dim_dimInsights_of_ne (by decide),
      filter_dim_dimInsights_of_ne (by decide), filter_dim_dimInsights_of_ne (by decide),
      filter_dim_dimInsights_of_ne (by decide), filter_dim_dimInsights_of_ne (by decide),
      filter_dim_dimInsights_of_ne (by decide),
      List.filter_cons_of_neg (by simp [mkInsight]), List.filter_nil]
    simp only [List.append_nil, List.nil_append]
    exact sumTC_dimInsights _ _ _ _ _ _ _
  · rw [filter_dim_dimInsights_self, filter_dim_dimInsights_of_ne (by decide),
      filter_dim_dimInsights_of_ne (by decide), filter_dim_dimInsights_of_ne (by decide),
      filter_dim_dimInsights_of_ne (by decide), filter_dim_dimInsights_of_ne (by decide),
      filter_dim_dimInsights_of_ne (by decide),
      List.filter_cons_of_neg (by simp [mkInsight]), List.filter_nil]
    simp only [List.append_nil, List.nil_append]
    exact sumTC_dimInsights _ _ _ _ _ _ _
  · rw [filter_dim_dimInsights_self, filter_dim_dimInsights_of_ne (by decide),
      filter_dim_dimInsights_of_ne (by decide), filter_dim_dimInsights_of_ne (by decide),
      filter_dim_dimInsights_of_ne (by decide), filter_dim_dimInsights_of_ne (by decide),
      filter_dim_dimInsights_of_ne (by decide),
      List.filter_cons_of_neg (by simp [mkInsight]), List.filter_nil]
    simp only [List.append_nil, List.nil_append]
    rw [sumTC_dimInsights]
    rw [List.filter_eq_self.mpr (fun r _ => by simp)]

/-- Witness for C10 at a concrete input with one null `Contract`. -/
theorem C10_null_group_keys_witness :
    sumTotalCustomers (((create_churn_insights exEnrNullContract "csv").getD []).filter
        (fun i => i.dimension = "Contract"))
      = (exEnrNullContract.filter (fun r => ¬ r.base.contract = Cell.none)).length ∧
    sumTotalCustomers (((create_churn_insights exEnrNullContract "csv").getD []).filter
        (fun i => i.dimension = "InternetService"))
      = (exEnrNullContract.filter (fun r => ¬ r.base.internetService = Cell.none)).length ∧
    sumTotalCustomers (((create_churn_insights exEnrNullContract "csv").getD []).filter
        (fun i => i.dimension = "PaymentMethod"))
      = (exEnrNullContract.filter (fun r => ¬ r.base.paymentMethod = Cell.none)).length ∧
    sumTotalCustomers (((create_churn_insights exEnrNullContract "csv").getD []).filter
        (fun i => i.dimension = "tenure_group")) = exEnrNullContract.length ∧
    sumTotalCustomers (((create_churn_insights exEnrNullContract "csv").getD []).filter
        (fun i => i.dimension = "gender"))
      = (exEnrNullContract.filter (fun r => ¬ r.base.gender = Cell.none)).length ∧
    sumTotalCustomers (((create_churn_insights exEnrNullContract "csv").getD []).filter
        (fun i => i.dimension = "SeniorCitizen"))
      = (exEnrNullContract.filter (fun r => ¬ r.base.seniorCitizen = Cell.none)).length ∧
    sumTotalCustomers (((create_churn_insights exEnrNullContract "csv").getD []).filter
        (fun i => i.dimension = "monthly_charges_group")) = exEnrNullContract.length ∧
    (((create_churn_insights exEnrNullContract "csv").getD []).filter
        (fun i => i.dimension = "ALL")).map (fun i => i.total_customers)
      = [exEnrNullContract.length] :=
  C10_null_group_keys exEnrNullContract "csv"
    ((create_churn_insights exEnrNullContract "csv").getD []) (by decide)

/-! ## C1: idempotence of cleaning -/

theorem pyStrip_pyCapitalize_pyStrip (s : String) :
    pyStrip (pyCapitalize (pyStrip s)) = pyCapitalize (pyStrip s) :=
  congrArg String.mk (pyStripChars_pyCapitalizeChars_pyStripChars s.data)

theorem pyLower_pyCapitalize (s : String) : pyLower (pyCapitalize s) = pyLower s :=
  congrArg String.mk (pyLowerChars_pyCapitalizeChars s.data)

theorem pyCapitalize_pyCapitalize (s : String) :
    pyCapitalize (pyCapitalize s) = pyCapitalize s :=
  congrArg String.mk (pyCapitalizeChars_idem s.data)

theorem pyStr_str (s : String) : Cell.pyStr (Cell.str s) = s := rfl

theorem ynNormalize_of_notna (v : Cell) (h : ¬ v = Cell.none) :
    ynNormalize v =
      (if pyLower (pyStrip (Cell.pyStr v)) = "yes" ∨ pyLower (pyStrip (Cell.pyStr v)) = "true"
          ∨ pyLower (pyStrip (Cell.pyStr v)) = "1" then Cell.str "Yes"
      else if pyLower (pyStrip (Cell.pyStr v)) = "no" ∨ pyLower (pyStrip (Cell.pyStr v)) = "false"
          ∨ pyLower (pyStrip (Cell.pyStr v)) = "0" then Cell.str "No"
      else Cell.str (pyCapitalize (pyStrip (Cell.pyStr v)))) := by
  cases v with
  | none => exact absurd rfl h
  | str s => rfl
  | int n => rfl
  | float q => rfl

theorem ynNormalize_idem (c : Cell) : ynNormalize (ynNormalize c) = ynNormalize c := by
  by_cases hn : c = Cell.none
  · subst hn
    decide
  · rw [ynNormalize_of_notna c hn]
    by_cases h1 : pyLower (pyStrip (Cell.pyStr c)) = "yes"
        ∨ pyLower (pyStrip (Cell.pyStr c)) = "true" ∨ pyLower (pyStrip (Cell.pyStr c)) = "1"
    · rw [if_pos h1]
      decide
    · rw [if_neg h1]
      by_cases h2 : pyLower (pyStrip (Cell.pyStr c)) = "no"
          ∨ pyLower (pyStrip (Cell.pyStr c)) = "false" ∨ pyLower (pyStrip (Cell.pyStr c)) = "0"
      · rw [if_pos h2]
        decide
      · rw [if_neg h2]
        rw [ynNormalize_of_notna _ (by simp)]
        simp only [pyStr_str, pyStrip_pyCapitalize_pyStrip, pyLower_pyCapitalize]
        rw [if_neg h1, if_neg h2, pyCapitalize_pyCapitalize]

theorem genderClean_idem (c : Cell) : genderClean (genderClean c) = genderClean c := by
  cases c with
  | str s =>
    show Cell.str (pyCapitalize (pyStrip (pyCapitalize (pyStrip s))))
        = Cell.str (pyCapitalize (pyStrip s))
    rw [pyStrip_pyCapitalize_pyStrip, pyCapitalize_pyCapitalize]
  | none => rfl
  | int n => rfl
  | float q => rfl

theorem cleanRowStr_idem (r : Row) : cleanRowStr (cleanRowStr r) = cleanRowStr r := by
  unfold cleanRowStr
  simp only [ynNormalize_idem, genderClean_idem]

attribute [ext] Row

theorem parse_ofOpt (o : Option ℚ) : parse_total_charges (Cell.ofOpt o) = o := by
  cases o <;> rfl

theorem cleanTenure_int (t : Int) : cleanTenure (Cell.int t) = t := by
  show ratTruncInt ((t : ℚ)) = t
  unfold ratTruncInt
  rw [Rat.num_intCast, Rat.den_intCast]
  exact Int.tdiv_one t

theorem imputeTotalCharges_none_mc {r : Row} (h : imputeTotalCharges r = Option.none) :
    parse_total_charges r.monthlyCharges = Option.none := by
  unfold imputeTotalCharges at h
  rcases htc : parse_total_charges r.totalCharges with _ | q <;> rw [htc] at h
  · exact Option.map_eq_none'.mp h
  · exact absurd h (by simp)

/-- A row whose numeric columns already have cleaned shape is a fixed point
of the numeric cleaning stage (on a numeric `SeniorCitizen` column). -/
theorem cleanRowNum_fix (X : Row) (o : Option ℚ) (m : Option ℚ) (t : Int) (n : Int)
    (hX1 : X.totalCharges = Cell.ofOpt o)
    (himp : o = Option.none → X.monthlyCharges = Cell.ofOpt Option.none)
    (hX2 : X.monthlyCharges = Cell.ofOpt m)
    (hX3 : X.tenure = Cell.int t)
    (hX4 : X.seniorCitizen = Cell.int n) :
    cleanRowNum false X = some X := by
  have hTC : Cell.ofOpt (imputeTotalCharges X) = X.totalCharges := by
    unfold imputeTotalCharges
    rw [hX1, parse_ofOpt]
    cases o with
    | some q => rfl
    | none =>
      rw [himp rfl, parse_ofOpt]
      rfl
  have hMC : Cell.ofOpt (parse_total_charges X.monthlyCharges) = X.monthlyCharges := by
    rw [hX2, parse_ofOpt]
  have hT : Cell.int (cleanTenure X.tenure) = X.tenure := by
    rw [hX3, cleanTenure_int]
  unfold cleanRowNum
  rw [hX4]
  show some { X with
      totalCharges := Cell.ofOpt (imputeTotalCharges X)
      monthlyCharges := Cell.ofOpt (parse_total_charges X.monthlyCharges)
      tenure := Cell.int (cleanTenure X.tenure)
      seniorCitizen := Cell.int n } = some X
  refine congrArg some ?_
  apply Row.ext <;> first | rfl | exact hTC | exact hMC | exact hT | exact hX4.symm

theorem cleanRowNum_stable {sObj : Bool} {r rn : Row} (h : cleanRowNum sObj r = some rn) :
    cleanRowNum false (cleanRowStr rn) = some (cleanRowStr rn) := by
  obtain ⟨sc, hs, rfl⟩ := cleanRowNum_eq_some h
  refine cleanRowNum_fix _ (imputeTotalCharges r) (parse_total_charges r.monthlyCharges)
    (cleanTenure r.tenure) sc rfl (fun ho => ?_) rfl rfl rfl
  show Cell.ofOpt (parse_total_charges r.monthlyCharges) = Cell.ofOpt Option.none
  rw [imputeTotalCharges_none_mc ho]

theorem mapOption_eq_some_self (f : α → Option α) (l : List α)
    (h : ∀ x ∈ l, f x = some x) : mapOption f l = some l := by
  induction l with
  | nil => rfl
  | cons x xs ih =>
    rw [mapOption, h x (List.mem_cons_self _ _),
      ih (fun y hy => h y (List.mem_cons_of_mem _ hy))]

/-- C1: cleaning is idempotent — whenever `clean_data` succeeds, running it
again on its own output succeeds and returns the output unchanged (same
rows, same values, same order). -/
theorem C1_clean_idempotent (rows out : List Row) (h : clean_data rows = some out) :
    clean_data out = some out := by
  obtain ⟨r1, hm, hg, rfl⟩ := clean_data_eq_some.mp h
  have hf2 := (mapOption_forall2 _ _ _).mp hm
  have hmem : ∀ x ∈ dedupByKey rowKey r1, ∃ r, cleanRowNum (seniorObj rows) r = some x := by
    intro x hx
    obtain ⟨r, _, hfr⟩ := forall2_mem_right hf2 (mem_of_mem_dedupByKey hx)
    exact ⟨r, hfr⟩
  have hsenior : seniorObj ((dedupByKey rowKey r1).map cleanRowStr) = false := by
    unfold seniorObj
    rw [List.any_eq_false]
    intro x hx
    obtain ⟨rn, hrn, rfl⟩ := List.mem_map.mp hx
    obtain ⟨r, hr⟩ := hmem rn hrn
    obtain ⟨sc, _, rfl⟩ := cleanRowNum_eq_some hr
    show ¬ (Cell.isStr (Cell.int sc) = true)
    simp [Cell.isStr]
  have hmap2 : mapOption (cleanRowNum false) ((dedupByKey rowKey r1).map cleanRowStr)
      = some ((dedupByKey rowKey r1).map cleanRowStr) := by
    refine mapOption_eq_some_self _ _ fun x hx => ?_
    obtain ⟨rn, hrn, rfl⟩ := List.mem_map.mp hx
    obtain ⟨r, hr⟩ := hmem rn hrn
    exact cleanRowNum_stable hr
  have hkeys : (((dedupByKey rowKey r1).map cleanRowStr).map rowKey).Nodup := by
    have he : ((dedupByKey rowKey r1).map cleanRowStr).map rowKey
        = (dedupByKey rowKey r1).map rowKey := by
      rw [List.map_map]
      exact List.map_congr_left fun x _ => (cleanRowStr_stable_fields x).1
    rw [he, map_key_dedupByKey]
    exact nodup_dedupCells _
  have hded : dedupByKey rowKey ((dedupByKey rowKey r1).map cleanRowStr)
      = (dedupByKey rowKey r1).map cleanRowStr := dedupByKey_eq_self _ _ hkeys
  have hfix : ((dedupByKey rowKey r1).map cleanRowStr).map cleanRowStr
      = (dedupByKey rowKey r1).map cleanRowStr := by
    rw [List.map_map]
    exact List.map_congr_left fun x _ => cleanRowStr_idem x
  have hgen : ¬ ((dedupByKey rowKey r1).map cleanRowStr ≠ [] ∧
      ¬ ((dedupByKey rowKey r1).map cleanRowStr).any (fun r => r.gender.isStr)) := by
    rintro ⟨hne2, hnost⟩
    refine hg ⟨fun hdnil => hne2 (by rw [hdnil]; rfl), fun hany => hnost ?_⟩
    rw [List.any_eq_true] at hany ⊢
    obtain ⟨x, hx, hxs⟩ := hany
    refine ⟨cleanRowStr x, List.mem_map_of_mem _ hx, ?_⟩
    rcases hgx : x.gender with s | n | q
    · show Cell.isStr (genderClean x.gender) = true
      rw [hgx]
      rfl
    · rw [hgx] at hxs
      exact absurd hxs (by simp [Cell.isStr])
    · rw [hgx] at hxs
      exact absurd hxs (by simp [Cell.isStr])
    · rw [hgx] at hxs
      exact absurd hxs (by simp [Cell.isStr])
  refine clean_data_eq_some.mpr ⟨(dedupByKey rowKey r1).map cleanRowStr, ?_, ?_, ?_⟩
  · rw [hsenior]
    exact hmap2
  · rw [hded]
    exact hgen
  · rw [hded]
    exact hfix.symm

/-- A raw record set with a duplicate key, a corrupted monetary string and
a missing `TotalCharges`. -/
def exRowsC1 : List Row :=
  [{ exRowBase with totalCharges := Cell.str "$29.85$29.85$29.85" },
   exRowEmptyTC, exRowNegTenure]

/-- Witness for C1 at a concrete input. -/
theorem C1_clean_idempotent_witness :
    clean_data ((clean_data exRowsC1).getD [])
      = some ((clean_data exRowsC1).getD []) :=
  C1_clean_idempotent exRowsC1 ((clean_data exRowsC1).getD []) (by decide)
